import Mathlib

/-!
# BNO055 driver (`tutrcos/module/bno055.hpp`)

A shallow embedding of the UART register codec (`write_reg`, `read_reg`), of the
initialisation (`init`) and of the orientation engine (`update`, `reset_euler`, `reset_quat`,
the accessors and `normalize_angle`) of the class `tutrcos::module::BNO055`.

* Bytes are natural numbers (below 256 on a real line).
* `float` values are elements of a linearly ordered field `K` with a floor function, so the
  arithmetic is exact; `K := ℚ` evaluates, `K := ℝ` with `M_PI := Real.pi` is the reading
  "over exact real arithmetic".
* The serial transport is a parameter: a state type `σ` with the three operations the driver
  calls.  Every call the driver makes is appended to a log carried next to the transport state.
* `update_f32` is the same `update` evaluated in binary32: every arithmetic operation of the
  source is rounded to the nearest `float`, the values being kept as rationals.
* The tick counter is a parameter: the count of ticks at each reading.  The loop of `init`
  is bounded by a number of evaluations of its condition, and answers `none` at the bound.
-/

namespace tutrcos
namespace module

/-! ## The serial transport -/

/-- One call made by the driver on `uart_`, with the arguments that reach the transport. -/
inductive UartOp where
  | flush
  | transmit (bytes : List Nat) (timeout : Nat)
  | receive (size : Nat) (timeout : Nat)
  deriving DecidableEq

/-- Modelled from the spec: the class `peripheral::UART` (`tutrcos/peripheral/uart.hpp` is not
among the sources).  `flush()` discards buffered input, `transmit(buffer, length, timeout)`
answers whether all bytes were sent, and `receive(buffer, length, timeout)` answers with its
verdict together with the bytes that arrived; how the answers depend on what went before is
up to the transport state `σ`. -/
structure UART (σ : Type) where
  flush : σ → σ
  transmit : List Nat → Nat → σ → Bool × σ
  receive : Nat → Nat → σ → (Bool × List Nat) × σ

/-- The transport as seen from the driver: its state and the calls made on it so far. -/
structure Line (σ : Type) where
  dev : σ
  log : List UartOp

/-- The call `uart_.flush()`. -/
def uart_flush {σ : Type} (U : UART σ) (l : Line σ) : Line σ :=
  { dev := U.flush l.dev, log := l.log ++ [UartOp.flush] }

/-- The call `uart_.transmit(data, size, timeout)`: the first `size` bytes at `data` are
handed to the transport. -/
def uart_transmit {σ : Type} (U : UART σ) (data : List Nat) (size timeout : Nat)
    (l : Line σ) : Bool × Line σ :=
  let r := U.transmit (data.take size) timeout l.dev
  (r.1, { dev := r.2, log := l.log ++ [UartOp.transmit (data.take size) timeout] })

/-- Modelled from the spec: the effect of `UART::receive` on the buffer it is given
(`tutrcos/peripheral/uart.hpp` is not among the sources).  The call
`uart_.receive(buf, size, timeout)` stores at most `size` bytes at the start of `buf`, the bytes
behind them keep their value, and the call is successful only when all `size` bytes were
received.  The result is the verdict and the buffer after the call. -/
def uart_receive {σ : Type} (U : UART σ) (buf : List Nat) (size timeout : Nat)
    (l : Line σ) : (Bool × List Nat) × Line σ :=
  let r := U.receive size timeout l.dev
  let got := r.1.2.take size
  ((r.1.1 && decide (got.length = size), got ++ buf.drop got.length),
    { dev := r.2, log := l.log ++ [UartOp.receive size timeout] })

/-- The bytes handed to `transmit` in a sequence of transport calls, in the order sent. -/
def transmitted : List UartOp → List Nat
  | [] => []
  | UartOp.transmit bytes _ :: ops => bytes ++ transmitted ops
  | _ :: ops => transmitted ops

/-! ## The register codec -/

/-- The member function `BNO055::write_reg(addr, data, size)`. -/
def write_reg {σ : Type} (U : UART σ) (addr : Nat) (data : List Nat) (size : Nat)
    (l : Line σ) : Bool × Line σ :=
  let buf : List Nat := [0xAA, 0x00, addr, size]
  let l := uart_flush U l
  let t1 := uart_transmit U buf 4 5 l
  if !t1.1 then (false, t1.2) else
  let t2 := uart_transmit U data size 5 t1.2
  if !t2.1 then (false, t2.2) else
  let r := uart_receive U buf 2 5 t2.2
  if !r.1.1 then (false, r.2) else
  (decide (r.1.2.getD 0 0 = 0xEE) && decide (r.1.2.getD 1 0 = 0x01), r.2)

/-- The member function `BNO055::read_reg(addr, data, size)`; the result carries the destination buffer `data`
as it is when the function returns. -/
def read_reg {σ : Type} (U : UART σ) (addr : Nat) (data : List Nat) (size : Nat)
    (l : Line σ) : (Bool × List Nat) × Line σ :=
  let buf : List Nat := [0xAA, 0x01, addr, size]
  let l := uart_flush U l
  let t := uart_transmit U buf 4 5 l
  if !t.1 then ((false, data), t.2) else
  let h := uart_receive U buf 2 5 t.2
  if !h.1.1 then ((false, data), h.2) else
  if h.1.2.getD 0 0 ≠ 0xBB ∨ h.1.2.getD 1 0 ≠ size then ((false, data), h.2) else
  uart_receive U data size 5 h.2

/-! ## The orientation engine -/

/-- The data members of `BNO055` other than the transport reference. -/
structure BNO055 (K : Type) where
  euler_x_orig_ : K
  euler_y_orig_ : K
  euler_z_orig_ : K
  euler_x_offset_ : K
  euler_y_offset_ : K
  euler_z_offset_ : K
  euler_x_ : K
  euler_y_ : K
  euler_z_ : K
  quat_w_orig_ : K
  quat_x_orig_ : K
  quat_y_orig_ : K
  quat_z_orig_ : K
  quat_w_offset_ : K
  quat_x_offset_ : K
  quat_y_offset_ : K
  quat_z_offset_ : K
  quat_w_ : K
  quat_x_ : K
  quat_y_ : K
  quat_z_ : K
  deriving DecidableEq

section engine

variable {K : Type} [LinearOrderedField K] [FloorRing K]

/-- The default member initialisers: the state of a freshly constructed driver. -/
def BNO055.new : BNO055 K :=
  { euler_x_orig_ := 0, euler_y_orig_ := 0, euler_z_orig_ := 0
    euler_x_offset_ := 0, euler_y_offset_ := 0, euler_z_offset_ := 0
    euler_x_ := 0, euler_y_ := 0, euler_z_ := 0
    quat_w_orig_ := 1, quat_x_orig_ := 0, quat_y_orig_ := 0, quat_z_orig_ := 0
    quat_w_offset_ := -1, quat_x_offset_ := 0, quat_y_offset_ := 0, quat_z_offset_ := 0
    quat_w_ := 1, quat_x_ := 0, quat_y_ := 0, quat_z_ := 0 }

/-- The C library `fmod` in exact arithmetic: `x - n * y` where `n` is `x / y` with its
fractional part truncated (the driver only calls it with `y = 2 * M_PI`). -/
def fmod (x y : K) : K :=
  x - ((if 0 ≤ x / y then ⌊x / y⌋ else ⌈x / y⌉ : ℤ) : K) * y

/-- The member function `BNO055::normalize_angle(angle)`; `M_PI` is the constant of `<cmath>`. -/
def normalize_angle (M_PI : K) (angle : K) : K :=
  let res := fmod angle (2 * M_PI)
  if res < 0 then res + 2 * M_PI else res

/-- The element `i` of a `std::array<int16_t, 4>` whose storage holds the bytes `data`
(little-endian, two's complement). -/
def int16_at (data : List Nat) (i : Nat) : Int :=
  let v : Nat := data.getD (2 * i) 0 + 256 * data.getD (2 * i + 1) 0
  if v < 32768 then (v : Int) else (v : Int) - 65536

/-- The member function `BNO055::update()`.  `data` is the content of the uninitialised local array `data`
(8 bytes) when the function is entered. -/
def update {σ : Type} (U : UART σ) (M_PI : K) (data : List Nat) (s : BNO055 K)
    (l : Line σ) : Bool × BNO055 K × Line σ :=
  let r1 := read_reg U 0x1A data 6 l
  if !r1.1.1 then (false, s, r1.2) else
  let data := r1.1.2
  let s := { s with
    euler_x_orig_ := (int16_at data 0 : K) / 900
    euler_y_orig_ := (int16_at data 1 : K) / 900
    euler_z_orig_ := (int16_at data 2 : K) / 900 }
  let s := { s with
    euler_x_ := normalize_angle M_PI (s.euler_x_orig_ - s.euler_x_offset_)
    euler_y_ := normalize_angle M_PI (s.euler_y_orig_ - s.euler_y_offset_)
    euler_z_ := normalize_angle M_PI (s.euler_z_orig_ - s.euler_z_offset_) }
  let r2 := read_reg U 0x20 data 8 r1.2
  if !r2.1.1 then (false, s, r2.2) else
  let data := r2.1.2
  let s := { s with
    quat_w_orig_ := (int16_at data 0 : K) / 16384
    quat_x_orig_ := (int16_at data 1 : K) / 16384
    quat_y_orig_ := (int16_at data 2 : K) / 16384
    quat_z_orig_ := (int16_at data 3 : K) / 16384 }
  let s := { s with
    quat_w_ := s.quat_w_orig_ * s.quat_w_offset_ - s.quat_x_orig_ * s.quat_x_offset_ -
               s.quat_y_orig_ * s.quat_y_offset_ - s.quat_z_orig_ * s.quat_z_offset_
    quat_x_ := s.quat_w_orig_ * s.quat_x_offset_ + s.quat_x_orig_ * s.quat_w_offset_ +
               s.quat_y_orig_ * s.quat_z_offset_ - s.quat_z_orig_ * s.quat_y_offset_
    quat_y_ := s.quat_w_orig_ * s.quat_y_offset_ - s.quat_x_orig_ * s.quat_z_offset_ +
               s.quat_y_orig_ * s.quat_w_offset_ + s.quat_z_orig_ * s.quat_x_offset_
    quat_z_ := s.quat_w_orig_ * s.quat_z_offset_ + s.quat_x_orig_ * s.quat_y_offset_ -
               s.quat_y_orig_ * s.quat_x_offset_ + s.quat_z_orig_ * s.quat_w_offset_ }
  (true, s, r2.2)

/-- The content of the local array `data` of `update` after its first `read_reg` call (the
Euler block, register `0x1A`). -/
def update_euler_data {σ : Type} (U : UART σ) (data : List Nat) (l : Line σ) : List Nat :=
  (read_reg U 0x1A data 6 l).1.2

/-- The content of the local array `data` of `update` after its second `read_reg` call (the
quaternion block, register `0x20`), which starts where the first call left the transport. -/
def update_quat_data {σ : Type} (U : UART σ) (data : List Nat) (l : Line σ) : List Nat :=
  (read_reg U 0x20 (read_reg U 0x1A data 6 l).1.2 8 (read_reg U 0x1A data 6 l).2).1.2

/-- The member function `BNO055::reset_euler()`. -/
def reset_euler (s : BNO055 K) : BNO055 K :=
  { s with
    euler_x_offset_ := s.euler_x_orig_
    euler_y_offset_ := s.euler_y_orig_
    euler_z_offset_ := s.euler_z_orig_ }

/-- The member function `BNO055::reset_quat()`. -/
def reset_quat (s : BNO055 K) : BNO055 K :=
  { s with
    quat_w_offset_ := -s.quat_w_orig_
    quat_x_offset_ := s.quat_x_orig_
    quat_y_offset_ := s.quat_y_orig_
    quat_z_offset_ := s.quat_z_orig_ }

/-- The member function `BNO055::get_euler_x()`. -/
def get_euler_x (s : BNO055 K) : K := s.euler_x_

/-- The member function `BNO055::get_euler_y()`. -/
def get_euler_y (s : BNO055 K) : K := s.euler_y_

/-- The member function `BNO055::get_euler_z()`. -/
def get_euler_z (s : BNO055 K) : K := s.euler_z_

/-- The member function `BNO055::get_quat_w()`. -/
def get_quat_w (s : BNO055 K) : K := s.quat_w_

/-- The member function `BNO055::get_quat_x()`. -/
def get_quat_x (s : BNO055 K) : K := s.quat_x_

/-- The member function `BNO055::get_quat_y()`. -/
def get_quat_y (s : BNO055 K) : K := s.quat_y_

/-- The member function `BNO055::get_quat_z()`. -/
def get_quat_z (s : BNO055 K) : K := s.quat_z_

end engine

/-! ## Concrete transports used to run the driver -/

/-- The state of a scripted transport: the verdicts of the coming `transmit` calls and the
answers of the coming `receive` calls. -/
structure Script where
  tx : List Bool
  rx : List (Bool × List Nat)

/-- A transport that replays a script; a call for which the script has no entry fails. -/
def scripted : UART Script where
  flush := fun st => st
  transmit := fun _ _ st => (st.tx.headD false, { st with tx := st.tx.tail })
  receive := fun _ _ st => (st.rx.headD (false, []), { st with rx := st.rx.tail })

/-- A line on which nothing has happened yet, in front of a scripted transport. -/
def Script.line (tx : List Bool) (rx : List (Bool × List Nat)) : Line Script :=
  { dev := { tx := tx, rx := rx }, log := [] }

/-- The Euler block answers and the quaternion block does not. -/
def line_quat_fails : Line Script :=
  Script.line [true, true]
    [(true, [0xBB, 6]), (true, [0x84, 0x03, 0x08, 0x07, 0x7C, 0xFC]), (false, [])]

/-- Both blocks answer: Euler counts `(900, 1800, -900)`, quaternion counts
`(8192, 8192, 8192, 8192)`. -/
def line_both_ok : Line Script :=
  Script.line [true, true]
    [(true, [0xBB, 6]), (true, [0x84, 0x03, 0x08, 0x07, 0x7C, 0xFC]),
     (true, [0xBB, 8]), (true, [0x00, 0x20, 0x00, 0x20, 0x00, 0x20, 0x00, 0x20])]

/-! ## Initialisation -/

/-- Modelled from the spec: `core::Kernel::get_ticks()` (`tutrcos/core/kernel.hpp` is not among
the sources), the tick counter read as a `uint32_t`.  The tick source `ticks` gives the count
of ticks at each reading, reading `0` being the first one; the call returns it modulo `2 ^ 32`. -/
def get_ticks (ticks : Nat → Nat) (n : Nat) : Nat :=
  ticks n % 2 ^ 32

/-- The difference `now - start` of two `uint32_t` values. -/
def sub_u32 (now start : Nat) : Nat :=
  (now + (2 ^ 32 - start % 2 ^ 32)) % 2 ^ 32

/-- The loop of `BNO055::init(timeout)`.  `fuel` bounds the number of times the loop condition
is evaluated (`none`: the bound was reached), `n` counts the readings of the tick counter made
so far, and the result carries the returned value, the number of readings made and the
transport. -/
def init_loop {σ : Type} (U : UART σ) (ticks : Nat → Nat) (start timeout : Nat) :
    Nat → Nat → Line σ → Option (Bool × Nat × Line σ)
  | 0, _, _ => none
  | fuel + 1, n, l =>
    if sub_u32 (get_ticks ticks n) start < timeout then
      let w1 := write_reg U 0x3D [0x00] 1 l
      if !w1.1 then init_loop U ticks start timeout fuel (n + 1) w1.2 else
      let w2 := write_reg U 0x3B [0x04] 1 w1.2
      if !w2.1 then init_loop U ticks start timeout fuel (n + 1) w2.2 else
      let w3 := write_reg U 0x3D [0x08] 1 w2.2
      if !w3.1 then init_loop U ticks start timeout fuel (n + 1) w3.2 else
      some (true, n + 1, w3.2)
    else some (false, n + 1, l)

/-- The member function `BNO055::init(timeout)`: `start` is reading `0` of the tick counter. -/
def init {σ : Type} (U : UART σ) (ticks : Nat → Nat) (timeout fuel : Nat) (l : Line σ) :
    Option (Bool × Nat × Line σ) :=
  init_loop U ticks (get_ticks ticks 0) timeout fuel 1 l

/-- One execution of the body of the loop of `init`, a pass: the three register writes in
order, given up at the first one that fails.  The result is true when the body reaches
`return true` and false when it reaches a `continue`. -/
def init_pass {σ : Type} (U : UART σ) (l : Line σ) : Bool × Line σ :=
  let w1 := write_reg U 0x3D [0x00] 1 l
  if !w1.1 then (false, w1.2) else
  let w2 := write_reg U 0x3B [0x04] 1 w1.2
  if !w2.1 then (false, w2.2) else
  let w3 := write_reg U 0x3D [0x08] 1 w2.2
  if !w3.1 then (false, w3.2) else
  (true, w3.2)

/-- The transport at the start of pass `i` of `init` (passes are counted from `0`), when the
passes before it all ran. -/
def pass_line {σ : Type} (U : UART σ) (l : Line σ) : Nat → Line σ
  | 0 => l
  | i + 1 => (init_pass U (pass_line U l i)).2

/-! ## The driver as an object -/

/-- A call of one of the member functions that touch the orientation state; `update` comes
with the content of its uninitialised local array. -/
inductive Call where
  | update (data : List Nat)
  | reset_euler
  | reset_quat
  deriving DecidableEq

section driver

variable {K : Type} [LinearOrderedField K] [FloorRing K]

/-- The effect of one call on the driver object, that is on its data members and on the
transport its member `uart_` refers to.  The two reset functions make no call on `uart_`. -/
def BNO055.call {σ : Type} (U : UART σ) (M_PI : K) (d : BNO055 K × Line σ) :
    Call → BNO055 K × Line σ
  | Call.update data => (update U M_PI data d.1 d.2).2
  | Call.reset_euler => (reset_euler d.1, d.2)
  | Call.reset_quat => (reset_quat d.1, d.2)

/-- The driver object after a sequence of calls, starting from a freshly constructed driver
in front of the transport `l`. -/
def BNO055.after {σ : Type} (U : UART σ) (M_PI : K) (l : Line σ) (calls : List Call) :
    BNO055 K × Line σ :=
  calls.foldl (BNO055.call U M_PI) (BNO055.new, l)

end driver

/-- A transport on which every transmit and every receive fails. -/
def dead : UART Unit where
  flush := fun st => st
  transmit := fun _ _ st => (false, st)
  receive := fun _ _ st => ((false, []), st)

/-- A line that acknowledges every write of the first pass. -/
def line_init_ok : Line Script :=
  Script.line [true, true, true, true, true, true]
    [(true, [0xEE, 0x01]), (true, [0xEE, 0x01]), (true, [0xEE, 0x01])]

/-- A line on which the second write of the first pass is answered by `EE 00`, and every
write of the second pass is acknowledged. -/
def line_init_retry : Line Script :=
  Script.line [true, true, true, true, true, true, true, true, true, true]
    [(true, [0xEE, 0x01]), (true, [0xEE, 0x00]),
     (true, [0xEE, 0x01]), (true, [0xEE, 0x01]), (true, [0xEE, 0x01])]

/-! ## Predicates on the orientation state -/

section predicates

variable {K : Type} [LinearOrderedField K] [FloorRing K]

/-- The three corrected Euler angles of `s` lie in `[0, 2 * M_PI)`. -/
def euler_in_range (M_PI : K) (s : BNO055 K) : Prop :=
  (0 ≤ s.euler_x_ ∧ s.euler_x_ < 2 * M_PI) ∧ (0 ≤ s.euler_y_ ∧ s.euler_y_ < 2 * M_PI) ∧
    (0 ≤ s.euler_z_ ∧ s.euler_z_ < 2 * M_PI)

instance (M_PI : K) (s : BNO055 K) : Decidable (euler_in_range M_PI s) := by
  unfold euler_in_range
  infer_instance

/-- The offset quaternion of `s` is the one of the member initialisers, `(-1, 0, 0, 0)`. -/
def default_quat_offset (s : BNO055 K) : Prop :=
  s.quat_w_offset_ = -1 ∧ s.quat_x_offset_ = 0 ∧ s.quat_y_offset_ = 0 ∧ s.quat_z_offset_ = 0

instance (s : BNO055 K) : Decidable (default_quat_offset s) := by
  unfold default_quat_offset
  infer_instance

end predicates

/-! ## The orientation engine in binary32 -/

/-- The number `k` with `2 ^ k ≤ n < 2 ^ (k + 1)`, for `0 < n ≤ fuel`. -/
def ilog2 : Nat → Nat → Nat
  | 0, _ => 0
  | fuel + 1, n => if n < 2 then 0 else ilog2 fuel (n / 2) + 1

/-- Rounding of a rational to the nearest binary floating-point number with a significand of
`p` bits, ties going to the even significand (the IEEE 754 default).  With `e` the exponent of
`x`, that is `2 ^ e ≤ |x| < 2 ^ (e + 1)`, the result is the multiple of `2 ^ (e - p + 1)`
nearest to `x`.  The exponent is not bounded: overflow and subnormal numbers are left out,
and the values `update` computes from a payload (of magnitude between `2 ^ (-28)` and `16` in
the quaternion part) are far from both. -/
def round_bin (p : Nat) (x : ℚ) : ℚ :=
  if x = 0 then 0 else
  let e0 : Int := (ilog2 x.num.natAbs x.num.natAbs : Int) - (ilog2 x.den x.den : Int)
  let e : Int := if |x| < (2 : ℚ) ^ e0 then e0 - 1 else e0
  let u : ℚ := (2 : ℚ) ^ (e - (p : Int) + 1)
  let q : ℚ := |x| / u
  let m : Int := ⌊q⌋
  let r : ℚ := q - m
  let m1 : Int := if r < 1 / 2 then m else if 1 / 2 < r then m + 1 else
    if m % 2 = 0 then m else m + 1
  (if x < 0 then -1 else 1) * (m1 : ℚ) * u

/-- Rounding to `float` (binary32, significand of 24 bits). -/
def round_f32 (x : ℚ) : ℚ := round_bin 24 x

/-- Rounding to `double` (binary64, significand of 53 bits). -/
def round_f64 (x : ℚ) : ℚ := round_bin 53 x

/-- The constant `M_PI` of `<cmath>`, the `double` nearest to π. -/
def M_PI_f64 : ℚ := 884279719003555 / 281474976710656

/-- The member function `BNO055::normalize_angle(angle)` in floating point.  The call
`fmod(angle, 2.0f * M_PI)` is made on `double` values, where `2.0f * M_PI` and the remainder
are exact, and its result is stored in the `float` variable `res`; the sum
`res + 2.0f * M_PI` is a `double` and is returned as a `float`. -/
def normalize_angle_f32 (angle : ℚ) : ℚ :=
  let res := round_f32 (fmod angle (2 * M_PI_f64))
  if res < 0 then round_f32 (round_f64 (res + 2 * M_PI_f64)) else res

/-- The member function `BNO055::update()` in binary32: the control flow and the transport
calls are those of `update`, the data members hold `float` values (kept as rationals), and the
result of every division, subtraction, addition and multiplication of `float` values is rounded
to `float`, operation by operation and in the order of the source (`a - b - c - d` is
`((a - b) - c) - d`).  The conversion of an `int16_t` to `float` is exact. -/
def update_f32 {σ : Type} (U : UART σ) (data : List Nat) (s : BNO055 ℚ)
    (l : Line σ) : Bool × BNO055 ℚ × Line σ :=
  let r1 := read_reg U 0x1A data 6 l
  if !r1.1.1 then (false, s, r1.2) else
  let data := r1.1.2
  let s := { s with
    euler_x_orig_ := round_f32 ((int16_at data 0 : ℚ) / 900)
    euler_y_orig_ := round_f32 ((int16_at data 1 : ℚ) / 900)
    euler_z_orig_ := round_f32 ((int16_at data 2 : ℚ) / 900) }
  let s := { s with
    euler_x_ := normalize_angle_f32 (round_f32 (s.euler_x_orig_ - s.euler_x_offset_))
    euler_y_ := normalize_angle_f32 (round_f32 (s.euler_y_orig_ - s.euler_y_offset_))
    euler_z_ := normalize_angle_f32 (round_f32 (s.euler_z_orig_ - s.euler_z_offset_)) }
  let r2 := read_reg U 0x20 data 8 r1.2
  if !r2.1.1 then (false, s, r2.2) else
  let data := r2.1.2
  let s := { s with
    quat_w_orig_ := round_f32 ((int16_at data 0 : ℚ) / 16384)
    quat_x_orig_ := round_f32 ((int16_at data 1 : ℚ) / 16384)
    quat_y_orig_ := round_f32 ((int16_at data 2 : ℚ) / 16384)
    quat_z_orig_ := round_f32 ((int16_at data 3 : ℚ) / 16384) }
  let s := { s with
    quat_w_ :=
      round_f32 (round_f32 (round_f32 (round_f32 (s.quat_w_orig_ * s.quat_w_offset_) -
        round_f32 (s.quat_x_orig_ * s.quat_x_offset_)) -
        round_f32 (s.quat_y_orig_ * s.quat_y_offset_)) -
        round_f32 (s.quat_z_orig_ * s.quat_z_offset_))
    quat_x_ :=
      round_f32 (round_f32 (round_f32 (round_f32 (s.quat_w_orig_ * s.quat_x_offset_) +
        round_f32 (s.quat_x_orig_ * s.quat_w_offset_)) +
        round_f32 (s.quat_y_orig_ * s.quat_z_offset_)) -
        round_f32 (s.quat_z_orig_ * s.quat_y_offset_))
    quat_y_ :=
      round_f32 (round_f32 (round_f32 (round_f32 (s.quat_w_orig_ * s.quat_y_offset_) -
        round_f32 (s.quat_x_orig_ * s.quat_z_offset_)) +
        round_f32 (s.quat_y_orig_ * s.quat_w_offset_)) +
        round_f32 (s.quat_z_orig_ * s.quat_x_offset_))
    quat_z_ :=
      round_f32 (round_f32 (round_f32 (round_f32 (s.quat_w_orig_ * s.quat_z_offset_) +
        round_f32 (s.quat_x_orig_ * s.quat_y_offset_)) -
        round_f32 (s.quat_y_orig_ * s.quat_x_offset_)) +
        round_f32 (s.quat_z_orig_ * s.quat_w_offset_)) }
  (true, s, r2.2)

/-- Both blocks answer: Euler counts `(900, 1800, -900)`, quaternion counts
`(12345, 6789, 4321, 8765)`. -/
def line_quat_counts : Line Script :=
  Script.line [true, true]
    [(true, [0xBB, 6]), (true, [0x84, 0x03, 0x08, 0x07, 0x7C, 0xFC]),
     (true, [0xBB, 8]), (true, [0x39, 0x30, 0x85, 0x1A, 0xE1, 0x10, 0x3D, 0x22])]

/-! ## The register codec: lemmas -/

/-- The three outcomes of `read_reg`, in terms of the answers of the transport: the header
could not be sent; the header was sent and a matching response header came back, and the
result is that of the payload receive; or no matching response header came back. -/
theorem read_reg_eq {σ : Type} (U : UART σ) (addr : Nat) (data : List Nat) (size : Nat)
    (l : Line σ) :
    read_reg U addr data size l =
      if (U.transmit [0xAA, 0x01, addr, size] 5 (U.flush l.dev)).1 = false then
        ((false, data),
          { dev := (U.transmit [0xAA, 0x01, addr, size] 5 (U.flush l.dev)).2
            log := l.log ++ [UartOp.flush, UartOp.transmit [0xAA, 0x01, addr, size] 5] })
      else if (U.receive 2 5 (U.transmit [0xAA, 0x01, addr, size] 5 (U.flush l.dev)).2).1.1 = true ∧
          (U.receive 2 5 (U.transmit [0xAA, 0x01, addr, size] 5 (U.flush l.dev)).2).1.2.take 2
            = [0xBB, size] then
        uart_receive U data size 5
          { dev := (U.receive 2 5 (U.transmit [0xAA, 0x01, addr, size] 5 (U.flush l.dev)).2).2
            log := l.log ++ [UartOp.flush, UartOp.transmit [0xAA, 0x01, addr, size] 5,
              UartOp.receive 2 5] }
      else
        ((false, data),
          { dev := (U.receive 2 5 (U.transmit [0xAA, 0x01, addr, size] 5 (U.flush l.dev)).2).2
            log := l.log ++ [UartOp.flush, UartOp.transmit [0xAA, 0x01, addr, size] 5,
              UartOp.receive 2 5] }) := by
  have e1 : List.take 4 [0xAA, 0x01, addr, size] = [0xAA, 0x01, addr, size] := rfl
  simp only [read_reg, uart_flush, uart_transmit, uart_receive, e1]
  generalize U.transmit [0xAA, 0x01, addr, size] 5 (U.flush l.dev) = t
  generalize U.receive 2 5 t.2 = h
  rcases t with ⟨_ | _, s1⟩ <;> rcases h with ⟨⟨_ | _, _ | ⟨x, _ | ⟨y, zs⟩⟩⟩, s2⟩ <;> simp
  by_cases hx : x = 187 <;> by_cases hy : y = size <;> simp [hx, hy]

/-! ## The register codec: `write_reg` -/

/-- Claim C2: `write_reg` returns true exactly when the header transmit and the payload
transmit succeed, the 2-byte receive succeeds, and the two bytes received are `0xEE` followed
by `0x01`.  Here `t1`, `t2` and `r` are the answers of the transport to the three calls, in the
state each call finds it in. -/
theorem write_reg_true_iff {σ : Type} (U : UART σ) (addr : Nat) (data : List Nat) (size : Nat)
    (l : Line σ) :
    let t1 := U.transmit [0xAA, 0x00, addr, size] 5 (U.flush l.dev)
    let t2 := U.transmit (data.take size) 5 t1.2
    let r := U.receive 2 5 t2.2
    (write_reg U addr data size l).1 = true ↔
      t1.1 = true ∧ t2.1 = true ∧ r.1.1 = true ∧ r.1.2.take 2 = [0xEE, 0x01] := by
  have e1 : List.take 4 [0xAA, 0x00, addr, size] = [0xAA, 0x00, addr, size] := rfl
  simp only [write_reg, uart_flush, uart_transmit, uart_receive, e1]
  generalize U.transmit [0xAA, 0x00, addr, size] 5 (U.flush l.dev) = t1
  generalize U.transmit (data.take size) 5 t1.2 = t2
  generalize U.receive 2 5 t2.2 = r
  rcases t1 with ⟨_ | _, s1⟩ <;> rcases t2 with ⟨_ | _, s2⟩ <;>
    rcases r with ⟨⟨_ | _, _ | ⟨x, _ | ⟨y, zs⟩⟩⟩, s3⟩ <;> simp

/-! ## The register codec: `read_reg` -/

/-- Claim C3: when the response header that the transport delivers to `read_reg` is not
`0xBB` followed by the requested size, `read_reg` returns false, the destination buffer is
what it was, and the calls made on the transport are the flush, the header transmit and (when
that transmit succeeded) the 2-byte receive: no payload receive is issued, and the transport
is left in the state after the last of these calls. -/
theorem read_reg_header_mismatch {σ : Type} (U : UART σ) (addr : Nat) (data : List Nat)
    (size : Nat) (l : Line σ)
    (hne : (U.receive 2 5 (U.transmit [0xAA, 0x01, addr, size] 5 (U.flush l.dev)).2).1.2.take 2
      ≠ [0xBB, size]) :
    let t := U.transmit [0xAA, 0x01, addr, size] 5 (U.flush l.dev)
    let h := U.receive 2 5 t.2
    let r := read_reg U addr data size l
    r.1.1 = false ∧ r.1.2 = data ∧
      r.2.log = l.log ++ (UartOp.flush :: UartOp.transmit [0xAA, 0x01, addr, size] 5 ::
        (if t.1 then [UartOp.receive 2 5] else [])) ∧
      r.2.dev = if t.1 then h.2 else t.2 := by
  intro t h r
  have hne' : ¬ (h.1.1 = true ∧ h.1.2.take 2 = [0xBB, size]) := fun hh => hne hh.2
  simp only [r, read_reg_eq]
  rcases ht : t.1 with _ | _
  · simp [t, ht, show (U.transmit [0xAA, 0x01, addr, size] 5 (U.flush l.dev)).1 = false from ht]
  · simp only [show (U.transmit [0xAA, 0x01, addr, size] 5 (U.flush l.dev)).1 = true from ht]
    rw [if_neg (by simp), if_neg hne']
    simp [h, t]

/-- A run of C3: the device answers a read of 6 bytes with the header `BB 05`. -/
theorem read_reg_header_mismatch_witness :
    (read_reg scripted 0x1A [1, 2, 3, 4, 5, 6, 7, 8] 6
        (Script.line [true] [(true, [0xBB, 5]), (true, [9, 9, 9, 9, 9, 9])])).1
      = (false, [1, 2, 3, 4, 5, 6, 7, 8]) ∧
    (read_reg scripted 0x1A [1, 2, 3, 4, 5, 6, 7, 8] 6
        (Script.line [true] [(true, [0xBB, 5]), (true, [9, 9, 9, 9, 9, 9])])).2.log
      = [UartOp.flush, UartOp.transmit [0xAA, 0x01, 0x1A, 6] 5, UartOp.receive 2 5] := by
  have h := read_reg_header_mismatch scripted 0x1A [1, 2, 3, 4, 5, 6, 7, 8] 6
    (Script.line [true] [(true, [0xBB, 5]), (true, [9, 9, 9, 9, 9, 9])]) (by decide)
  exact ⟨Prod.ext h.1 h.2.1, h.2.2.1⟩

/-- Claim C4: `read_reg` returns true exactly when the header transmit succeeds, the 2-byte
receive succeeds and delivers `0xBB` followed by the requested size, and the receive of `size`
bytes succeeds.  When the header matches, `read_reg` returns what that last receive returns: its
verdict, with the delivered bytes at the start of the destination buffer; on success these
are exactly `size` bytes and the buffer behind them is untouched.  Here `t`, `h` and `p` are
the answers of the transport to the three calls. -/
theorem read_reg_true_iff {σ : Type} (U : UART σ) (addr : Nat) (data : List Nat) (size : Nat)
    (l : Line σ) :
    let t := U.transmit [0xAA, 0x01, addr, size] 5 (U.flush l.dev)
    let h := U.receive 2 5 t.2
    let p := U.receive size 5 h.2
    let r := read_reg U addr data size l
    (r.1.1 = true ↔
      t.1 = true ∧ h.1.1 = true ∧ h.1.2.take 2 = [0xBB, size] ∧
        p.1.1 = true ∧ size ≤ p.1.2.length) ∧
    (t.1 = true → h.1.1 = true → h.1.2.take 2 = [0xBB, size] →
      r = uart_receive U data size 5
            { dev := h.2
              log := l.log ++ [UartOp.flush, UartOp.transmit [0xAA, 0x01, addr, size] 5,
                UartOp.receive 2 5] } ∧
      r.1.1 = (p.1.1 && decide (size ≤ p.1.2.length)) ∧
      r.1.2 = p.1.2.take size ++ data.drop (p.1.2.take size).length ∧
      (r.1.1 = true → r.1.2.take size = p.1.2.take size ∧ (p.1.2.take size).length = size ∧
        r.1.2.drop size = data.drop size)) := by
  intro t h p r
  simp only [r, read_reg_eq]
  rcases ht : t.1 with _ | _
  · simp [show (U.transmit [0xAA, 0x01, addr, size] 5 (U.flush l.dev)).1 = false from ht]
  · simp only [show (U.transmit [0xAA, 0x01, addr, size] 5 (U.flush l.dev)).1 = true from ht]
    rw [if_neg (by simp)]
    by_cases hh : h.1.1 = true ∧ h.1.2.take 2 = [0xBB, size]
    · rw [if_pos hh]
      have hp : (U.receive size 5 (U.receive 2 5 (U.transmit [0xAA, 0x01, addr, size] 5
          (U.flush l.dev)).2).2) = p := rfl
      simp only [uart_receive, hp]
      have hlen : (p.1.2.take size).length = size ↔ size ≤ p.1.2.length := by
        simp [List.length_take]
      refine ⟨?_, fun _ _ _ => ⟨trivial, ?_, trivial, ?_⟩⟩
      · simp [hh.1, hh.2, hlen]
      · simp [hlen]
      · intro hok
        have hsz : (p.1.2.take size).length = size := by
          simp only [Bool.and_eq_true, decide_eq_true_eq] at hok
          exact hok.2
        refine ⟨?_, hsz, ?_⟩
        · rw [List.take_append_of_le_length (le_of_eq hsz.symm)]
          simp
        · rw [List.drop_append_of_le_length (le_of_eq hsz.symm),
            List.drop_eq_nil_of_le (le_of_eq hsz), hsz]
          simp
    · rw [if_neg hh]
      constructor
      · simp; intro h1 h2; exact absurd ⟨h1, h2⟩ hh
      · intro _ h1 h2; exact absurd ⟨h1, h2⟩ hh

/-- A run of C4: the device answers a read of 6 bytes with `BB 06` and six payload bytes. -/
theorem read_reg_true_iff_witness :
    read_reg scripted 0x1A [1, 2, 3, 4, 5, 6, 7, 8] 6
        (Script.line [true] [(true, [0xBB, 6]), (true, [0x84, 0x03, 0x08, 0x07, 0x7C, 0xFC])])
      = uart_receive scripted [1, 2, 3, 4, 5, 6, 7, 8] 6 5
          { dev := { tx := [], rx := [(true, [0x84, 0x03, 0x08, 0x07, 0x7C, 0xFC])] }
            log := [UartOp.flush, UartOp.transmit [0xAA, 0x01, 0x1A, 6] 5, UartOp.receive 2 5] } ∧
    (read_reg scripted 0x1A [1, 2, 3, 4, 5, 6, 7, 8] 6
        (Script.line [true] [(true, [0xBB, 6]), (true, [0x84, 0x03, 0x08, 0x07, 0x7C, 0xFC])])).1
      = (true, [0x84, 0x03, 0x08, 0x07, 0x7C, 0xFC, 7, 8]) := by
  have h := (read_reg_true_iff scripted 0x1A [1, 2, 3, 4, 5, 6, 7, 8] 6
    (Script.line [true] [(true, [0xBB, 6]), (true, [0x84, 0x03, 0x08, 0x07, 0x7C, 0xFC])])).2
    (by decide) (by decide) (by decide)
  exact ⟨h.1, by decide⟩

/-- The calls `read_reg` makes on the transport: a flush, the transmit of the read request,
and after that receives only; when it returns true these are the receive of the 2-byte
header and the receive of the payload. -/
theorem read_reg_log {σ : Type} (U : UART σ) (addr : Nat) (data : List Nat) (size : Nat)
    (l : Line σ) :
    ∃ rest, (read_reg U addr data size l).2.log =
        l.log ++ UartOp.flush :: UartOp.transmit [0xAA, 0x01, addr, size] 5 :: rest ∧
      (∀ op ∈ rest, ∃ n, op = UartOp.receive n 5) ∧
      ((read_reg U addr data size l).1.1 = true →
        rest = [UartOp.receive 2 5, UartOp.receive size 5]) := by
  rw [read_reg_eq]
  split_ifs with h1 h2
  · exact ⟨[], by simp, by simp, by simp⟩
  · exact ⟨[UartOp.receive 2 5, UartOp.receive size 5], by simp [uart_receive],
      by simp, by simp⟩
  · exact ⟨[UartOp.receive 2 5], by simp, by simp, by simp⟩


/-! ## The wire format -/

/-- Claim C5: for a register `reg` and a payload `data` of `len` bytes (any `len`, so also
every `len ≤ 255`), when both transmits succeed the calls `write_reg` makes on the transport
are, in this order: a flush, the transmit of `AA 00 reg len`, the transmit of the payload, and
one receive of 2 bytes.  So the bytes it sends are `AA 00 reg len` followed by the payload and
nothing else. -/
theorem write_reg_wire {σ : Type} (U : UART σ) (reg : Nat) (data : List Nat) (len : Nat)
    (l : Line σ) (hlen : data.length = len)
    (ht1 : (U.transmit [0xAA, 0x00, reg, len] 5 (U.flush l.dev)).1 = true)
    (ht2 : (U.transmit data 5
      (U.transmit [0xAA, 0x00, reg, len] 5 (U.flush l.dev)).2).1 = true) :
    (write_reg U reg data len l).2.log =
        l.log ++ [UartOp.flush, UartOp.transmit [0xAA, 0x00, reg, len] 5,
          UartOp.transmit data 5, UartOp.receive 2 5] ∧
      transmitted ((write_reg U reg data len l).2.log.drop l.log.length) =
        [0xAA, 0x00, reg, len] ++ data := by
  have e1 : List.take 4 [0xAA, 0x00, reg, len] = [0xAA, 0x00, reg, len] := rfl
  have e2 : data.take len = data := by rw [← hlen]; exact List.take_length data
  have hlog : (write_reg U reg data len l).2.log =
        l.log ++ [UartOp.flush, UartOp.transmit [0xAA, 0x00, reg, len] 5,
          UartOp.transmit data 5, UartOp.receive 2 5] := by
    simp only [write_reg, uart_flush, uart_transmit, uart_receive, e1, e2, ht1, ht2]
    simp
    split_ifs <;> simp
  refine ⟨hlog, ?_⟩
  rw [hlog, List.drop_left]
  simp [transmitted]


/-- A run of C5: the mode write `0x3D <- 0x08` on a line that acknowledges it. -/
theorem write_reg_wire_witness :
    (write_reg scripted 0x3D [0x08] 1 (Script.line [true, true] [(true, [0xEE, 0x01])])).2.log =
        [UartOp.flush, UartOp.transmit [0xAA, 0x00, 0x3D, 1] 5, UartOp.transmit [0x08] 5,
          UartOp.receive 2 5] ∧
      transmitted ((write_reg scripted 0x3D [0x08] 1
          (Script.line [true, true] [(true, [0xEE, 0x01])])).2.log.drop 0) =
        [0xAA, 0x00, 0x3D, 1, 0x08] :=
  write_reg_wire scripted 0x3D [0x08] 1 (Script.line [true, true] [(true, [0xEE, 0x01])])
    (by decide) (by decide) (by decide)

/-! ## `update`: lemmas -/

section engine_lemmas

variable {K : Type} [LinearOrderedField K] [FloorRing K]

theorem update_ok_iff {σ : Type} (U : UART σ) (M_PI : K) (data : List Nat) (s : BNO055 K)
    (l : Line σ) :
    (update U M_PI data s l).1 = true ↔
      (read_reg U 0x1A data 6 l).1.1 = true ∧
      (read_reg U 0x20 (read_reg U 0x1A data 6 l).1.2 8 (read_reg U 0x1A data 6 l).2).1.1
        = true := by
  simp only [update]
  rcases (read_reg U 0x1A data 6 l).1.1 with _ | _
  · simp
  rcases (read_reg U 0x20 (read_reg U 0x1A data 6 l).1.2 8
      (read_reg U 0x1A data 6 l).2).1.1 with _ | _ <;> simp

theorem update_state_of_euler_failed {σ : Type} (U : UART σ) (M_PI : K) (data : List Nat)
    (s : BNO055 K) (l : Line σ) (h1 : (read_reg U 0x1A data 6 l).1.1 = false) :
    update U M_PI data s l = (false, s, (read_reg U 0x1A data 6 l).2) := by
  simp [update, h1]

theorem update_state_of_quat_failed {σ : Type} (U : UART σ) (M_PI : K) (data : List Nat)
    (s : BNO055 K) (l : Line σ) (h1 : (read_reg U 0x1A data 6 l).1.1 = true)
    (h2 : (read_reg U 0x20 (read_reg U 0x1A data 6 l).1.2 8
      (read_reg U 0x1A data 6 l).2).1.1 = false) :
    update U M_PI data s l =
      (false,
        { s with
          euler_x_orig_ := (int16_at (update_euler_data U data l) 0 : K) / 900
          euler_y_orig_ := (int16_at (update_euler_data U data l) 1 : K) / 900
          euler_z_orig_ := (int16_at (update_euler_data U data l) 2 : K) / 900
          euler_x_ := normalize_angle M_PI
            ((int16_at (update_euler_data U data l) 0 : K) / 900 - s.euler_x_offset_)
          euler_y_ := normalize_angle M_PI
            ((int16_at (update_euler_data U data l) 1 : K) / 900 - s.euler_y_offset_)
          euler_z_ := normalize_angle M_PI
            ((int16_at (update_euler_data U data l) 2 : K) / 900 - s.euler_z_offset_) },
        (read_reg U 0x20 (read_reg U 0x1A data 6 l).1.2 8 (read_reg U 0x1A data 6 l).2).2) := by
  simp [update, update_euler_data, update_quat_data, h1, h2]

theorem update_state_of_ok {σ : Type} (U : UART σ) (M_PI : K) (data : List Nat)
    (s : BNO055 K) (l : Line σ) (hok : (update U M_PI data s l).1 = true) :
    (update U M_PI data s l).2.1 =
      { s with
        euler_x_orig_ := (int16_at (update_euler_data U data l) 0 : K) / 900
        euler_y_orig_ := (int16_at (update_euler_data U data l) 1 : K) / 900
        euler_z_orig_ := (int16_at (update_euler_data U data l) 2 : K) / 900
        euler_x_ := normalize_angle M_PI
          ((int16_at (update_euler_data U data l) 0 : K) / 900 - s.euler_x_offset_)
        euler_y_ := normalize_angle M_PI
          ((int16_at (update_euler_data U data l) 1 : K) / 900 - s.euler_y_offset_)
        euler_z_ := normalize_angle M_PI
          ((int16_at (update_euler_data U data l) 2 : K) / 900 - s.euler_z_offset_)
        quat_w_orig_ := (int16_at (update_quat_data U data l) 0 : K) / 16384
        quat_x_orig_ := (int16_at (update_quat_data U data l) 1 : K) / 16384
        quat_y_orig_ := (int16_at (update_quat_data U data l) 2 : K) / 16384
        quat_z_orig_ := (int16_at (update_quat_data U data l) 3 : K) / 16384
        quat_w_ :=
          (int16_at (update_quat_data U data l) 0 : K) / 16384 * s.quat_w_offset_ -
          (int16_at (update_quat_data U data l) 1 : K) / 16384 * s.quat_x_offset_ -
          (int16_at (update_quat_data U data l) 2 : K) / 16384 * s.quat_y_offset_ -
          (int16_at (update_quat_data U data l) 3 : K) / 16384 * s.quat_z_offset_
        quat_x_ :=
          (int16_at (update_quat_data U data l) 0 : K) / 16384 * s.quat_x_offset_ +
          (int16_at (update_quat_data U data l) 1 : K) / 16384 * s.quat_w_offset_ +
          (int16_at (update_quat_data U data l) 2 : K) / 16384 * s.quat_z_offset_ -
          (int16_at (update_quat_data U data l) 3 : K) / 16384 * s.quat_y_offset_
        quat_y_ :=
          (int16_at (update_quat_data U data l) 0 : K) / 16384 * s.quat_y_offset_ -
          (int16_at (update_quat_data U data l) 1 : K) / 16384 * s.quat_z_offset_ +
          (int16_at (update_quat_data U data l) 2 : K) / 16384 * s.quat_w_offset_ +
          (int16_at (update_quat_data U data l) 3 : K) / 16384 * s.quat_x_offset_
        quat_z_ :=
          (int16_at (update_quat_data U data l) 0 : K) / 16384 * s.quat_z_offset_ +
          (int16_at (update_quat_data U data l) 1 : K) / 16384 * s.quat_y_offset_ -
          (int16_at (update_quat_data U data l) 2 : K) / 16384 * s.quat_x_offset_ +
          (int16_at (update_quat_data U data l) 3 : K) / 16384 * s.quat_w_offset_ } := by
  obtain ⟨h1, h2⟩ := (update_ok_iff U M_PI data s l).1 hok
  simp [update, update_euler_data, update_quat_data, h1, h2]


end engine_lemmas

/-- Claim C6: when `update` returns true (both reads succeeded), the calls it makes on the
transport are a flush, the transmit of `AA 01 1A 06`, the receives of the 2-byte header and
of the 6 payload bytes, then a flush, the transmit of `AA 01 20 08`, and the receives of the
2-byte header and of the 8 payload bytes; the bytes sent are these two requests and nothing
else.  In general `read_reg(reg, size)` makes a flush, one transmit, of `AA 01 reg size`, and
after it receives only. -/
theorem update_wire {σ : Type} {K : Type} [LinearOrderedField K] [FloorRing K]
    (U : UART σ) (M_PI : K) (data : List Nat) (s : BNO055 K) (l : Line σ)
    (hok : (update U M_PI data s l).1 = true) :
    (update U M_PI data s l).2.2.log =
        l.log ++ [UartOp.flush, UartOp.transmit [0xAA, 0x01, 0x1A, 0x06] 5,
          UartOp.receive 2 5, UartOp.receive 6 5,
          UartOp.flush, UartOp.transmit [0xAA, 0x01, 0x20, 0x08] 5,
          UartOp.receive 2 5, UartOp.receive 8 5] ∧
      transmitted ((update U M_PI data s l).2.2.log.drop l.log.length) =
        [0xAA, 0x01, 0x1A, 0x06] ++ [0xAA, 0x01, 0x20, 0x08] ∧
      ∀ (reg : Nat) (buf : List Nat) (size : Nat) (l0 : Line σ),
        ∃ rest, (read_reg U reg buf size l0).2.log =
            l0.log ++ UartOp.flush :: UartOp.transmit [0xAA, 0x01, reg, size] 5 :: rest ∧
          ∀ op ∈ rest, ∃ n, op = UartOp.receive n 5 := by
  have hlog : (update U M_PI data s l).2.2.log =
        l.log ++ [UartOp.flush, UartOp.transmit [0xAA, 0x01, 0x1A, 0x06] 5,
          UartOp.receive 2 5, UartOp.receive 6 5,
          UartOp.flush, UartOp.transmit [0xAA, 0x01, 0x20, 0x08] 5,
          UartOp.receive 2 5, UartOp.receive 8 5] := by
    revert hok
    simp only [update]
    rcases h1 : (read_reg U 0x1A data 6 l).1.1 with _ | _
    · simp
    rcases h2 : (read_reg U 0x20 (read_reg U 0x1A data 6 l).1.2 8
        (read_reg U 0x1A data 6 l).2).1.1 with _ | _
    · simp
    obtain ⟨r1, e1, -, f1⟩ := read_reg_log U 0x1A data 6 l
    obtain ⟨r2, e2, -, f2⟩ := read_reg_log U 0x20 (read_reg U 0x1A data 6 l).1.2 8
        (read_reg U 0x1A data 6 l).2
    simp [e2, e1, f1 h1, f2 h2]
  refine ⟨hlog, ?_, ?_⟩
  · rw [hlog, List.drop_left]
    simp [transmitted]
  · intro reg buf size l0
    obtain ⟨rest, e, f, -⟩ := read_reg_log U reg buf size l0
    exact ⟨rest, e, f⟩


/-- A run of C6: both blocks are answered. -/
theorem update_wire_witness :
    (update scripted Real.pi [0, 0, 0, 0, 0, 0, 0, 0] BNO055.new line_both_ok).2.2.log =
      [UartOp.flush, UartOp.transmit [0xAA, 0x01, 0x1A, 0x06] 5,
        UartOp.receive 2 5, UartOp.receive 6 5,
        UartOp.flush, UartOp.transmit [0xAA, 0x01, 0x20, 0x08] 5,
        UartOp.receive 2 5, UartOp.receive 8 5] :=
  (update_wire scripted Real.pi [0, 0, 0, 0, 0, 0, 0, 0] BNO055.new line_both_ok
    (by decide)).1

/-! ## `normalize_angle`: lemmas -/

section normalize_lemmas

variable {K : Type} [LinearOrderedField K] [FloorRing K]

theorem fmod_of_nonneg_of_lt {x y : K} (h0 : 0 ≤ x) (h1 : x < y) : fmod x y = x := by
  have hy : 0 < y := lt_of_le_of_lt h0 h1
  have hq : 0 ≤ x / y := div_nonneg h0 hy.le
  have hf : ⌊x / y⌋ = 0 := Int.floor_eq_zero_iff.2 ⟨hq, (div_lt_one hy).2 h1⟩
  simp [fmod, hq, hf]

theorem fmod_of_neg_of_gt {x y : K} (h0 : x < 0) (h1 : -y < x) : fmod x y = x := by
  have hy : 0 < y := by linarith
  have hq : x / y < 0 := div_neg_of_neg_of_pos h0 hy
  have hc : ⌈x / y⌉ = 0 := by
    rw [Int.ceil_eq_zero_iff]
    refine ⟨?_, hq.le⟩
    rw [lt_div_iff₀ hy]
    simpa using h1
  simp [fmod, not_le.2 hq, hc]

theorem normalize_angle_of_nonneg_of_lt {M_PI a : K} (h0 : 0 ≤ a) (h1 : a < 2 * M_PI) :
    normalize_angle M_PI a = a := by
  simp [normalize_angle, fmod_of_nonneg_of_lt h0 h1, not_lt.2 h0]

theorem normalize_angle_of_neg_of_gt {M_PI a : K} (h0 : a < 0) (h1 : -(2 * M_PI) < a) :
    normalize_angle M_PI a = a + 2 * M_PI := by
  simp [normalize_angle, fmod_of_neg_of_gt h0 h1, h0]

theorem normalize_angle_zero (M_PI : K) : normalize_angle M_PI 0 = 0 := by
  simp [normalize_angle, fmod]

end normalize_lemmas

/-! ## `update`: what a failed call leaves behind -/

/-- Claim C1 fails on this run: the Euler block (register `0x1A`) is answered with the counts
`(900, 1800, -900)`, the quaternion block (register `0x20`) is not answered.  `update` returns
false, and `get_euler_x`, which was `0` in the freshly constructed driver, is `1` afterwards. -/
theorem update_failure_changes_euler :
    (update scripted Real.pi [0, 0, 0, 0, 0, 0, 0, 0] BNO055.new line_quat_fails).1 = false ∧
    (read_reg scripted 0x1A [0, 0, 0, 0, 0, 0, 0, 0] 6 line_quat_fails).1.1 = true ∧
    get_euler_x (BNO055.new : BNO055 ℝ) = 0 ∧
    get_euler_x
      (update scripted Real.pi [0, 0, 0, 0, 0, 0, 0, 0] BNO055.new line_quat_fails).2.1 = 1 ∧
    (update scripted Real.pi [0, 0, 0, 0, 0, 0, 0, 0] BNO055.new line_quat_fails).2.1
      ≠ (BNO055.new : BNO055 ℝ) := by
  have h1 : (read_reg scripted 0x1A [0, 0, 0, 0, 0, 0, 0, 0] 6 line_quat_fails).1.1 = true := by
    decide
  have h2 : (read_reg scripted 0x20
      (read_reg scripted 0x1A [0, 0, 0, 0, 0, 0, 0, 0] 6 line_quat_fails).1.2 8
      (read_reg scripted 0x1A [0, 0, 0, 0, 0, 0, 0, 0] 6 line_quat_fails).2).1.1 = false := by
    decide
  have hd : update_euler_data scripted [0, 0, 0, 0, 0, 0, 0, 0] line_quat_fails
      = [0x84, 0x03, 0x08, 0x07, 0x7C, 0xFC, 0, 0] := by decide
  have hi : int16_at [0x84, 0x03, 0x08, 0x07, 0x7C, 0xFC, 0, 0] 0 = 900 := by decide
  have hx : get_euler_x
      (update scripted Real.pi [0, 0, 0, 0, 0, 0, 0, 0] BNO055.new line_quat_fails).2.1 = 1 := by
    rw [update_state_of_quat_failed _ _ _ _ _ h1 h2]
    simp only [get_euler_x, hd, hi, BNO055.new]
    norm_num
    exact normalize_angle_of_nonneg_of_lt zero_le_one (by linarith [Real.pi_gt_three])
  refine ⟨by decide, h1, rfl, hx, ?_⟩
  intro h
  rw [h] at hx
  simp [get_euler_x, BNO055.new] at hx

/-- Claim C1, amended: when `update` returns false, the Euler offset and the raw, offset and
corrected quaternion have the values they had before the call, so `get_quat_w/x/y/z` return
what they returned before; and when it is the Euler block read (register `0x1A`) that failed,
no field at all has changed. -/
theorem update_false_frame {σ : Type} {K : Type} [LinearOrderedField K] [FloorRing K]
    (U : UART σ) (M_PI : K) (data : List Nat) (s : BNO055 K) (l : Line σ)
    (hfalse : (update U M_PI data s l).1 = false) :
    let s' := (update U M_PI data s l).2.1
    (s'.euler_x_offset_ = s.euler_x_offset_ ∧ s'.euler_y_offset_ = s.euler_y_offset_ ∧
      s'.euler_z_offset_ = s.euler_z_offset_) ∧
    (s'.quat_w_orig_ = s.quat_w_orig_ ∧ s'.quat_x_orig_ = s.quat_x_orig_ ∧
      s'.quat_y_orig_ = s.quat_y_orig_ ∧ s'.quat_z_orig_ = s.quat_z_orig_) ∧
    (s'.quat_w_offset_ = s.quat_w_offset_ ∧ s'.quat_x_offset_ = s.quat_x_offset_ ∧
      s'.quat_y_offset_ = s.quat_y_offset_ ∧ s'.quat_z_offset_ = s.quat_z_offset_) ∧
    (get_quat_w s' = get_quat_w s ∧ get_quat_x s' = get_quat_x s ∧
      get_quat_y s' = get_quat_y s ∧ get_quat_z s' = get_quat_z s) ∧
    ((read_reg U 0x1A data 6 l).1.1 = false → s' = s) := by
  intro s'
  rcases h1 : (read_reg U 0x1A data 6 l).1.1 with _ | _
  · have e : s' = s := by
      simp only [s', update_state_of_euler_failed U M_PI data s l h1]
    simp [e]
  · rcases h2 : (read_reg U 0x20 (read_reg U 0x1A data 6 l).1.2 8
        (read_reg U 0x1A data 6 l).2).1.1 with _ | _
    · simp [s', update_state_of_quat_failed U M_PI data s l h1 h2, get_quat_w, get_quat_x,
        get_quat_y, get_quat_z]
    · have := (update_ok_iff U M_PI data s l).2 ⟨h1, h2⟩
      rw [hfalse] at this
      cases this

/-- A run of the amended C1: the quaternion block is not answered. -/
theorem update_false_frame_witness :
    get_quat_w
        (update scripted Real.pi [0, 0, 0, 0, 0, 0, 0, 0] BNO055.new line_quat_fails).2.1
      = get_quat_w (BNO055.new : BNO055 ℝ) :=
  (update_false_frame scripted Real.pi [0, 0, 0, 0, 0, 0, 0, 0] BNO055.new line_quat_fails
    (by decide)).2.2.2.1.1

/-! ## `update`: decoding -/

/-- Claim C7: a successful `update` sets each raw Euler component to the little-endian signed
16-bit count of its byte pair divided by 900, and each corrected component to
`normalize_angle (raw - offset)`, over the reals with `M_PI = π`.  With zero offset and the
counts `(900, 1800, -900)` the raw Euler is `(1, 2, -1)` and the corrected Euler is
`(1, 2, 2π - 1)`. -/
theorem update_euler_decode {σ : Type} (U : UART σ) (data : List Nat) (s : BNO055 ℝ)
    (l : Line σ) (hok : (update U Real.pi data s l).1 = true) :
    let d := update_euler_data U data l
    let s' := (update U Real.pi data s l).2.1
    (s'.euler_x_orig_ = (int16_at d 0 : ℝ) / 900 ∧
      s'.euler_y_orig_ = (int16_at d 1 : ℝ) / 900 ∧
      s'.euler_z_orig_ = (int16_at d 2 : ℝ) / 900) ∧
    (get_euler_x s' = normalize_angle Real.pi (s'.euler_x_orig_ - s.euler_x_offset_) ∧
      get_euler_y s' = normalize_angle Real.pi (s'.euler_y_orig_ - s.euler_y_offset_) ∧
      get_euler_z s' = normalize_angle Real.pi (s'.euler_z_orig_ - s.euler_z_offset_)) ∧
    (s.euler_x_offset_ = 0 → s.euler_y_offset_ = 0 → s.euler_z_offset_ = 0 →
      int16_at d 0 = 900 → int16_at d 1 = 1800 → int16_at d 2 = -900 →
      (s'.euler_x_orig_ = 1 ∧ s'.euler_y_orig_ = 2 ∧ s'.euler_z_orig_ = -1) ∧
      (get_euler_x s' = 1 ∧ get_euler_y s' = 2 ∧ get_euler_z s' = 2 * Real.pi - 1)) := by
  intro d s'
  have hs : s' = _ := update_state_of_ok U Real.pi data s l hok
  have hpi := Real.pi_gt_three
  refine ⟨?_, ?_, ?_⟩
  · rw [hs]; exact ⟨rfl, rfl, rfl⟩
  · rw [hs]; exact ⟨rfl, rfl, rfl⟩
  · intro ox oy oz c0 c1 c2
    have c0' : int16_at (update_euler_data U data l) 0 = 900 := c0
    have c1' : int16_at (update_euler_data U data l) 1 = 1800 := c1
    have c2' : int16_at (update_euler_data U data l) 2 = -900 := c2
    rw [hs]
    simp only [get_euler_x, get_euler_y, get_euler_z, ox, oy, oz, c0', c1', c2', sub_zero]
    have e1 : ((900 : ℤ) : ℝ) / 900 = 1 := by norm_num
    have e2 : ((1800 : ℤ) : ℝ) / 900 = 2 := by norm_num
    have e3 : ((-900 : ℤ) : ℝ) / 900 = -1 := by norm_num
    rw [e1, e2, e3]
    refine ⟨⟨rfl, rfl, rfl⟩, ?_, ?_, ?_⟩
    · exact normalize_angle_of_nonneg_of_lt zero_le_one (by linarith)
    · exact normalize_angle_of_nonneg_of_lt zero_le_two (by linarith)
    · rw [normalize_angle_of_neg_of_gt (by norm_num) (by linarith)]
      ring

/-- A run of C7: zero offset and the counts `(900, 1800, -900)`. -/
theorem update_euler_decode_witness :
    get_euler_z
        (update scripted Real.pi [0, 0, 0, 0, 0, 0, 0, 0] BNO055.new line_both_ok).2.1
      = 2 * Real.pi - 1 :=
  ((update_euler_decode scripted [0, 0, 0, 0, 0, 0, 0, 0] BNO055.new line_both_ok
    (by decide)).2.2 rfl rfl rfl (by decide) (by decide) (by decide)).2.2.2

/-- Claim C8: a successful `update` sets the raw quaternion `(w, x, y, z)` to the four
little-endian signed 16-bit counts divided by 16384, leaves the offset quaternion as it was,
and sets the corrected quaternion to the product `raw * offset` in the algebra of real
quaternions (raw on the left, offset on the right). -/
theorem update_quat_product {σ : Type} (U : UART σ) (data : List Nat) (s : BNO055 ℝ)
    (l : Line σ) (hok : (update U Real.pi data s l).1 = true) :
    let d := update_quat_data U data l
    let s' := (update U Real.pi data s l).2.1
    (s'.quat_w_orig_ = (int16_at d 0 : ℝ) / 16384 ∧
      s'.quat_x_orig_ = (int16_at d 1 : ℝ) / 16384 ∧
      s'.quat_y_orig_ = (int16_at d 2 : ℝ) / 16384 ∧
      s'.quat_z_orig_ = (int16_at d 3 : ℝ) / 16384) ∧
    (s'.quat_w_offset_ = s.quat_w_offset_ ∧ s'.quat_x_offset_ = s.quat_x_offset_ ∧
      s'.quat_y_offset_ = s.quat_y_offset_ ∧ s'.quat_z_offset_ = s.quat_z_offset_) ∧
    (QuaternionAlgebra.mk (get_quat_w s') (get_quat_x s') (get_quat_y s') (get_quat_z s')
        : Quaternion ℝ) =
      (QuaternionAlgebra.mk s'.quat_w_orig_ s'.quat_x_orig_ s'.quat_y_orig_ s'.quat_z_orig_
        : Quaternion ℝ) *
      (QuaternionAlgebra.mk s.quat_w_offset_ s.quat_x_offset_ s.quat_y_offset_ s.quat_z_offset_
        : Quaternion ℝ) := by
  intro d s'
  have hs : s' = _ := update_state_of_ok U Real.pi data s l hok
  refine ⟨?_, ?_, ?_⟩
  · rw [hs]; exact ⟨rfl, rfl, rfl, rfl⟩
  · rw [hs]; exact ⟨rfl, rfl, rfl, rfl⟩
  · rw [hs]
    ext <;> simp [get_quat_w, get_quat_x, get_quat_y, get_quat_z] <;> ring

/-- A run of C8: the quaternion counts are `(8192, 8192, 8192, 8192)`. -/
theorem update_quat_product_witness :
    (update scripted Real.pi [0, 0, 0, 0, 0, 0, 0, 0] BNO055.new line_both_ok).2.1.quat_w_orig_
      = ((8192 : ℤ) : ℝ) / 16384 := by
  have h := (update_quat_product scripted [0, 0, 0, 0, 0, 0, 0, 0] BNO055.new line_both_ok
    (by decide)).1.1
  have hd : int16_at (update_quat_data scripted [0, 0, 0, 0, 0, 0, 0, 0] line_both_ok) 0
      = 8192 := by decide
  rw [hd] at h
  exact h

/-! ## Resetting the reference -/

/-- The raw quaternion after an update that read the counts `(8192, 8192, 8192, 8192)`. -/
theorem half_quat_state :
    (update scripted Real.pi [0, 0, 0, 0, 0, 0, 0, 0] BNO055.new line_both_ok).2.1.quat_w_orig_
        = 1 / 2 ∧
    (update scripted Real.pi [0, 0, 0, 0, 0, 0, 0, 0] BNO055.new line_both_ok).2.1.quat_x_orig_
        = 1 / 2 ∧
    (update scripted Real.pi [0, 0, 0, 0, 0, 0, 0, 0] BNO055.new line_both_ok).2.1.quat_y_orig_
        = 1 / 2 ∧
    (update scripted Real.pi [0, 0, 0, 0, 0, 0, 0, 0] BNO055.new line_both_ok).2.1.quat_z_orig_
        = 1 / 2 := by
  have hd : update_quat_data scripted [0, 0, 0, 0, 0, 0, 0, 0] line_both_ok
      = [0x00, 0x20, 0x00, 0x20, 0x00, 0x20, 0x00, 0x20] := by decide
  have h0 : int16_at [0x00, 0x20, 0x00, 0x20, 0x00, 0x20, 0x00, 0x20] 0 = 8192 := by decide
  have h1 : int16_at [0x00, 0x20, 0x00, 0x20, 0x00, 0x20, 0x00, 0x20] 1 = 8192 := by decide
  have h2 : int16_at [0x00, 0x20, 0x00, 0x20, 0x00, 0x20, 0x00, 0x20] 2 = 8192 := by decide
  have h3 : int16_at [0x00, 0x20, 0x00, 0x20, 0x00, 0x20, 0x00, 0x20] 3 = 8192 := by decide
  rw [update_state_of_ok scripted Real.pi _ _ line_both_ok (by decide)]
  simp only [hd, h0, h1, h2, h3]
  norm_num

/-- Claim C9 fails on this run: a successful `update` reads the unit quaternion
`(1/2, 1/2, 1/2, 1/2)`, then `reset_quat` is called, then a successful `update` reads the same
quaternion again.  The corrected scalar part is then `-1`, not `1`. -/
theorem reset_quat_update_not_identity :
    (update scripted Real.pi [0, 0, 0, 0, 0, 0, 0, 0] BNO055.new line_both_ok).1 = true ∧
    (update scripted Real.pi [0, 0, 0, 0, 0, 0, 0, 0] BNO055.new
        line_both_ok).2.1.quat_w_orig_ ^ 2 +
      (update scripted Real.pi [0, 0, 0, 0, 0, 0, 0, 0] BNO055.new
        line_both_ok).2.1.quat_x_orig_ ^ 2 +
      (update scripted Real.pi [0, 0, 0, 0, 0, 0, 0, 0] BNO055.new
        line_both_ok).2.1.quat_y_orig_ ^ 2 +
      (update scripted Real.pi [0, 0, 0, 0, 0, 0, 0, 0] BNO055.new
        line_both_ok).2.1.quat_z_orig_ ^ 2 = 1 ∧
    (update scripted Real.pi [0, 0, 0, 0, 0, 0, 0, 0]
      (reset_quat (update scripted Real.pi [0, 0, 0, 0, 0, 0, 0, 0] BNO055.new
        line_both_ok).2.1) line_both_ok).1 = true ∧
    (update scripted Real.pi [0, 0, 0, 0, 0, 0, 0, 0]
      (reset_quat (update scripted Real.pi [0, 0, 0, 0, 0, 0, 0, 0] BNO055.new
        line_both_ok).2.1) line_both_ok).2.1.quat_w_orig_ =
      (update scripted Real.pi [0, 0, 0, 0, 0, 0, 0, 0] BNO055.new
        line_both_ok).2.1.quat_w_orig_ ∧
    get_quat_w (update scripted Real.pi [0, 0, 0, 0, 0, 0, 0, 0]
      (reset_quat (update scripted Real.pi [0, 0, 0, 0, 0, 0, 0, 0] BNO055.new
        line_both_ok).2.1) line_both_ok).2.1 = -1 ∧
    get_quat_w (update scripted Real.pi [0, 0, 0, 0, 0, 0, 0, 0]
      (reset_quat (update scripted Real.pi [0, 0, 0, 0, 0, 0, 0, 0] BNO055.new
        line_both_ok).2.1) line_both_ok).2.1 ≠ 1 := by
  have hq := half_quat_state
  have hval : get_quat_w (update scripted Real.pi [0, 0, 0, 0, 0, 0, 0, 0]
      (reset_quat (update scripted Real.pi [0, 0, 0, 0, 0, 0, 0, 0] BNO055.new
        line_both_ok).2.1) line_both_ok).2.1 = -1 := ?_
  refine ⟨by decide, ?_, by decide, rfl, hval, by rw [hval]; norm_num⟩
  · rw [hq.1, hq.2.1, hq.2.2.1, hq.2.2.2]; norm_num
  · have hd : update_quat_data scripted [0, 0, 0, 0, 0, 0, 0, 0] line_both_ok
        = [0x00, 0x20, 0x00, 0x20, 0x00, 0x20, 0x00, 0x20] := by decide
    have h0 : int16_at [0x00, 0x20, 0x00, 0x20, 0x00, 0x20, 0x00, 0x20] 0 = 8192 := by decide
    have h1 : int16_at [0x00, 0x20, 0x00, 0x20, 0x00, 0x20, 0x00, 0x20] 1 = 8192 := by decide
    have h2 : int16_at [0x00, 0x20, 0x00, 0x20, 0x00, 0x20, 0x00, 0x20] 2 = 8192 := by decide
    have h3 : int16_at [0x00, 0x20, 0x00, 0x20, 0x00, 0x20, 0x00, 0x20] 3 = 8192 := by decide
    rw [update_state_of_ok scripted Real.pi _ _ line_both_ok (by decide)]
    simp only [get_quat_w, reset_quat, hd, h0, h1, h2, h3, hq.1, hq.2.1, hq.2.2.1, hq.2.2.2]
    norm_num

/-- Claim C9, amended: for every driver state that holds a unit raw quaternion `q`, calling
`reset_quat` and then a successful `update` that decodes the same `q` yields the corrected
quaternion `(-1, 0, 0, 0)`, the negative of the identity quaternion; and for every unit `q` the
quaternion product of `q` with the offset `(-w, x, y, z)` that `reset_quat` stores is
`(-1, 0, 0, 0)`. -/
theorem reset_quat_then_update {σ : Type} (U : UART σ) (data : List Nat) (s : BNO055 ℝ)
    (l : Line σ)
    (hunit : s.quat_w_orig_ ^ 2 + s.quat_x_orig_ ^ 2 + s.quat_y_orig_ ^ 2
      + s.quat_z_orig_ ^ 2 = 1)
    (hok : (update U Real.pi data (reset_quat s) l).1 = true)
    (hw : (update U Real.pi data (reset_quat s) l).2.1.quat_w_orig_ = s.quat_w_orig_)
    (hx : (update U Real.pi data (reset_quat s) l).2.1.quat_x_orig_ = s.quat_x_orig_)
    (hy : (update U Real.pi data (reset_quat s) l).2.1.quat_y_orig_ = s.quat_y_orig_)
    (hz : (update U Real.pi data (reset_quat s) l).2.1.quat_z_orig_ = s.quat_z_orig_) :
    (get_quat_w (update U Real.pi data (reset_quat s) l).2.1 = -1 ∧
      get_quat_x (update U Real.pi data (reset_quat s) l).2.1 = 0 ∧
      get_quat_y (update U Real.pi data (reset_quat s) l).2.1 = 0 ∧
      get_quat_z (update U Real.pi data (reset_quat s) l).2.1 = 0) ∧
    (QuaternionAlgebra.mk s.quat_w_orig_ s.quat_x_orig_ s.quat_y_orig_ s.quat_z_orig_
        : Quaternion ℝ) *
      (QuaternionAlgebra.mk (reset_quat s).quat_w_offset_ (reset_quat s).quat_x_offset_
        (reset_quat s).quat_y_offset_ (reset_quat s).quat_z_offset_ : Quaternion ℝ) =
      (QuaternionAlgebra.mk (-1) 0 0 0 : Quaternion ℝ) := by
  have hs := update_state_of_ok U Real.pi data (reset_quat s) l hok
  rw [hs] at hw hx hy hz ⊢
  simp only [reset_quat] at hw hx hy hz
  simp only [get_quat_w, get_quat_x, get_quat_y, get_quat_z, reset_quat, hw, hx, hy, hz]
  refine ⟨⟨?_, ?_, ?_, ?_⟩, ?_⟩
  · linarith
  · ring
  · ring
  · ring
  · ext <;> simp <;> linarith

/-- A run of the amended C9, from the state reached by a successful update. -/
theorem reset_quat_then_update_witness :
    get_quat_w (update scripted Real.pi [0, 0, 0, 0, 0, 0, 0, 0]
      (reset_quat (update scripted Real.pi [0, 0, 0, 0, 0, 0, 0, 0] BNO055.new
        line_both_ok).2.1) line_both_ok).2.1 = -1 :=
  (reset_quat_then_update scripted [0, 0, 0, 0, 0, 0, 0, 0]
    (update scripted Real.pi [0, 0, 0, 0, 0, 0, 0, 0] BNO055.new line_both_ok).2.1
    line_both_ok
    (by rw [half_quat_state.1, half_quat_state.2.1, half_quat_state.2.2.1,
      half_quat_state.2.2.2]; norm_num)
    (by decide) rfl rfl rfl rfl).1.1

/-- Claim C10: for every driver state, if `reset_euler` is called and the next successful
`update` decodes the raw Euler reading held at the reset, the corrected Euler angles are
`0` on all three axes (over the reals, with `M_PI = π`). -/
theorem reset_euler_then_update {σ : Type} (U : UART σ) (data : List Nat) (s : BNO055 ℝ)
    (l : Line σ) (hok : (update U Real.pi data (reset_euler s) l).1 = true)
    (hx : (update U Real.pi data (reset_euler s) l).2.1.euler_x_orig_ = s.euler_x_orig_)
    (hy : (update U Real.pi data (reset_euler s) l).2.1.euler_y_orig_ = s.euler_y_orig_)
    (hz : (update U Real.pi data (reset_euler s) l).2.1.euler_z_orig_ = s.euler_z_orig_) :
    get_euler_x (update U Real.pi data (reset_euler s) l).2.1 = 0 ∧
    get_euler_y (update U Real.pi data (reset_euler s) l).2.1 = 0 ∧
    get_euler_z (update U Real.pi data (reset_euler s) l).2.1 = 0 := by
  have hs := update_state_of_ok U Real.pi data (reset_euler s) l hok
  rw [hs] at hx hy hz ⊢
  simp only [reset_euler] at hx hy hz
  simp only [get_euler_x, get_euler_y, get_euler_z, reset_euler, hx, hy, hz, sub_self,
    normalize_angle_zero, and_self]

/-- A run of C10, from the state reached by a successful update. -/
theorem reset_euler_then_update_witness :
    get_euler_x (update scripted Real.pi [0, 0, 0, 0, 0, 0, 0, 0]
      (reset_euler (update scripted Real.pi [0, 0, 0, 0, 0, 0, 0, 0] BNO055.new
        line_both_ok).2.1) line_both_ok).2.1 = 0 :=
  (reset_euler_then_update scripted [0, 0, 0, 0, 0, 0, 0, 0]
    (update scripted Real.pi [0, 0, 0, 0, 0, 0, 0, 0] BNO055.new line_both_ok).2.1
    line_both_ok (by decide) rfl rfl rfl).1

/-! ## `normalize_angle`: range and period -/

section range_lemmas

variable {K : Type} [LinearOrderedField K] [FloorRing K]

/-- In exact arithmetic `normalize_angle` is the remainder of the floored division by
`2 * M_PI`. -/
theorem normalize_angle_eq_floor {M_PI : K} (hpi : 0 < M_PI) (a : K) :
    normalize_angle M_PI a = a - (⌊a / (2 * M_PI)⌋ : K) * (2 * M_PI) := by
  have hy : (0 : K) < 2 * M_PI := by linarith
  have ha : a = a / (2 * M_PI) * (2 * M_PI) := (div_mul_cancel₀ a hy.ne').symm
  generalize hqdef : a / (2 * M_PI) = q at ha
  have hfl : (⌊q⌋ : K) ≤ q := Int.floor_le q
  have hce : q ≤ (⌈q⌉ : K) := Int.le_ceil q
  simp only [normalize_angle, fmod, hqdef]
  by_cases hq : 0 ≤ q
  · have hres : ¬ (a - (⌊q⌋ : K) * (2 * M_PI) < 0) := by
      rw [not_lt, ha, ← sub_mul]
      exact mul_nonneg (sub_nonneg.2 hfl) hy.le
    simp only [hq, if_true, hres, if_false]
  · simp only [hq, if_false]
    by_cases hres : a - (⌈q⌉ : K) * (2 * M_PI) < 0
    · simp only [hres, if_true]
      have hlt : q < (⌈q⌉ : K) := by
        by_contra hge
        have hge' : (⌈q⌉ : K) ≤ q := not_lt.1 hge
        have : 0 ≤ a - (⌈q⌉ : K) * (2 * M_PI) := by
          rw [ha, ← sub_mul]
          exact mul_nonneg (sub_nonneg.2 hge') hy.le
        linarith
      have hne : ⌊q⌋ < ⌈q⌉ := by
        have : (⌊q⌋ : K) < (⌈q⌉ : K) := lt_of_le_of_lt hfl hlt
        exact_mod_cast this
      have hle : ⌈q⌉ ≤ ⌊q⌋ + 1 := Int.ceil_le_floor_add_one q
      have heq : ⌈q⌉ = ⌊q⌋ + 1 := le_antisymm hle hne
      rw [heq]
      push_cast
      ring
    · simp only [hres, if_false]
      have hge : (⌈q⌉ : K) ≤ q := by
        by_contra hlt
        have hlt' : q < (⌈q⌉ : K) := not_le.1 hlt
        have : a - (⌈q⌉ : K) * (2 * M_PI) < 0 := by
          rw [ha, ← sub_mul]
          exact mul_neg_of_neg_of_pos (sub_neg.2 hlt') hy
        exact hres this
      have hqe : q = (⌈q⌉ : K) := le_antisymm hce hge
      have heq : ⌊q⌋ = ⌈q⌉ := by
        rw [hqe, Int.floor_intCast, Int.ceil_intCast]
      rw [heq]

/-- The value of `normalize_angle` lies in `[0, 2 * M_PI)`. -/
theorem normalize_angle_mem {M_PI : K} (hpi : 0 < M_PI) (a : K) :
    0 ≤ normalize_angle M_PI a ∧ normalize_angle M_PI a < 2 * M_PI := by
  have hy : (0 : K) < 2 * M_PI := by linarith
  have ha : a = a / (2 * M_PI) * (2 * M_PI) := (div_mul_cancel₀ a hy.ne').symm
  rw [normalize_angle_eq_floor hpi]
  have hfl := Int.floor_le (a / (2 * M_PI))
  have hlt := Int.lt_floor_add_one (a / (2 * M_PI))
  constructor
  · have := mul_nonneg (sub_nonneg.2 hfl) hy.le
    rw [sub_mul, ← ha] at this
    exact this
  · have := mul_lt_mul_of_pos_right hlt hy
    rw [← ha, add_mul, one_mul] at this
    linarith

/-- Adding an integer multiple of `2 * M_PI` does not change `normalize_angle`. -/
theorem normalize_angle_add_period {M_PI : K} (hpi : 0 < M_PI) (a : K) (k : ℤ) :
    normalize_angle M_PI (a + 2 * M_PI * k) = normalize_angle M_PI a := by
  have hy : (0 : K) < 2 * M_PI := by linarith
  rw [normalize_angle_eq_floor hpi, normalize_angle_eq_floor hpi]
  have : (a + 2 * M_PI * k) / (2 * M_PI) = a / (2 * M_PI) + k := by
    field_simp
    ring
  rw [this, Int.floor_add_int]
  push_cast
  ring

/-- An `update` keeps the corrected Euler angles in range. -/
theorem update_euler_in_range {σ : Type} (U : UART σ) {M_PI : K} (hpi : 0 < M_PI)
    (data : List Nat) (s : BNO055 K) (l : Line σ) (hs : euler_in_range M_PI s) :
    euler_in_range M_PI (update U M_PI data s l).2.1 := by
  rcases h1 : (read_reg U 0x1A data 6 l).1.1 with _ | _
  · rw [update_state_of_euler_failed U M_PI data s l h1]
    exact hs
  · rcases h2 : (read_reg U 0x20 (read_reg U 0x1A data 6 l).1.2 8
        (read_reg U 0x1A data 6 l).2).1.1 with _ | _
    · rw [update_state_of_quat_failed U M_PI data s l h1 h2]
      exact ⟨normalize_angle_mem hpi _, normalize_angle_mem hpi _, normalize_angle_mem hpi _⟩
    · rw [update_state_of_ok U M_PI data s l ((update_ok_iff U M_PI data s l).2 ⟨h1, h2⟩)]
      exact ⟨normalize_angle_mem hpi _, normalize_angle_mem hpi _, normalize_angle_mem hpi _⟩

/-- Every call keeps the corrected Euler angles in range. -/
theorem call_euler_in_range {σ : Type} (U : UART σ) {M_PI : K} (hpi : 0 < M_PI)
    (d : BNO055 K × Line σ) (c : Call) (hd : euler_in_range M_PI d.1) :
    euler_in_range M_PI (BNO055.call U M_PI d c).1 := by
  cases c with
  | update data => exact update_euler_in_range U hpi data d.1 d.2 hd
  | reset_euler => exact hd
  | reset_quat => exact hd

/-- A sequence of calls keeps the corrected Euler angles in range. -/
theorem foldl_call_euler_in_range {σ : Type} (U : UART σ) {M_PI : K} (hpi : 0 < M_PI)
    (calls : List Call) (d : BNO055 K × Line σ) (hd : euler_in_range M_PI d.1) :
    euler_in_range M_PI (calls.foldl (BNO055.call U M_PI) d).1 := by
  induction calls generalizing d with
  | nil => exact hd
  | cons c cs ih => exact ih _ (call_euler_in_range U hpi d c hd)

/-- An `update` leaves the default offset quaternion in place. -/
theorem update_default_quat_offset {σ : Type} (U : UART σ) (M_PI : K)
    (data : List Nat) (s : BNO055 K) (l : Line σ) (hs : default_quat_offset s) :
    default_quat_offset (update U M_PI data s l).2.1 := by
  rcases h1 : (read_reg U 0x1A data 6 l).1.1 with _ | _
  · rw [update_state_of_euler_failed U M_PI data s l h1]
    exact hs
  · rcases h2 : (read_reg U 0x20 (read_reg U 0x1A data 6 l).1.2 8
        (read_reg U 0x1A data 6 l).2).1.1 with _ | _
    · rw [update_state_of_quat_failed U M_PI data s l h1 h2]
      exact hs
    · rw [update_state_of_ok U M_PI data s l ((update_ok_iff U M_PI data s l).2 ⟨h1, h2⟩)]
      exact hs

/-- A sequence of calls without `reset_quat` leaves the default offset quaternion in place. -/
theorem foldl_call_default_quat_offset {σ : Type} (U : UART σ) (M_PI : K)
    (calls : List Call) (hno : Call.reset_quat ∉ calls) (d : BNO055 K × Line σ)
    (hd : default_quat_offset d.1) :
    default_quat_offset (calls.foldl (BNO055.call U M_PI) d).1 := by
  induction calls generalizing d with
  | nil => exact hd
  | cons c cs ih =>
    have hc : c ≠ Call.reset_quat := fun h => hno (h ▸ List.mem_cons_self _ _)
    have hcs : Call.reset_quat ∉ cs := fun h => hno (List.mem_cons_of_mem _ h)
    refine ih hcs _ ?_
    cases c with
    | update data => exact update_default_quat_offset U M_PI data d.1 d.2 hd
    | reset_euler => exact hd
    | reset_quat => exact absurd rfl hc

end range_lemmas

/-- Claim C11: over the reals with `M_PI = π`, `normalize_angle a` lies in `[0, 2π)` for every
`a` (negative values and multiples of `2π` included), and in the state reached from a freshly
constructed driver by any sequence of calls of `update` (successful or not), `reset_euler` and
`reset_quat`, on any transport, each of the three corrected Euler angles lies in `[0, 2π)`. -/
theorem corrected_euler_in_range {σ : Type} (U : UART σ) (l : Line σ) (calls : List Call) :
    (∀ a : ℝ, 0 ≤ normalize_angle Real.pi a ∧ normalize_angle Real.pi a < 2 * Real.pi) ∧
    (0 ≤ get_euler_x (BNO055.after U Real.pi l calls).1 ∧
      get_euler_x (BNO055.after U Real.pi l calls).1 < 2 * Real.pi) ∧
    (0 ≤ get_euler_y (BNO055.after U Real.pi l calls).1 ∧
      get_euler_y (BNO055.after U Real.pi l calls).1 < 2 * Real.pi) ∧
    (0 ≤ get_euler_z (BNO055.after U Real.pi l calls).1 ∧
      get_euler_z (BNO055.after U Real.pi l calls).1 < 2 * Real.pi) := by
  refine ⟨normalize_angle_mem Real.pi_pos, ?_⟩
  have h0 : euler_in_range Real.pi (BNO055.new : BNO055 ℝ) := by
    have := Real.pi_pos
    simp only [euler_in_range, BNO055.new]
    exact ⟨⟨le_refl 0, by linarith⟩, ⟨le_refl 0, by linarith⟩, ⟨le_refl 0, by linarith⟩⟩
  exact foldl_call_euler_in_range U Real.pi_pos calls (BNO055.new, l) h0

/-- Claim C12: over the reals with `M_PI = π`, `normalize_angle (a + 2π k) = normalize_angle a`
for every `a` and every integer `k`; hence when `(r - o) - (r' - o')` is an integer multiple of
`2π`, the corrected values `normalize_angle (r - o)` and `normalize_angle (r' - o')` are
equal. -/
theorem normalize_angle_periodic :
    (∀ (a : ℝ) (k : ℤ),
      normalize_angle Real.pi (a + 2 * Real.pi * k) = normalize_angle Real.pi a) ∧
    (∀ (r o r' o' : ℝ) (k : ℤ), (r - o) - (r' - o') = 2 * Real.pi * k →
      normalize_angle Real.pi (r - o) = normalize_angle Real.pi (r' - o')) := by
  refine ⟨normalize_angle_add_period Real.pi_pos, ?_⟩
  intro r o r' o' k h
  have : r - o = (r' - o') + 2 * Real.pi * k := by linarith
  rw [this, normalize_angle_add_period Real.pi_pos]

/-- An instance of C12: the readings `2π` and `0` with zero offsets. -/
theorem normalize_angle_periodic_witness :
    normalize_angle Real.pi (2 * Real.pi - 0) = normalize_angle Real.pi (0 - 0) :=
  normalize_angle_periodic.2 (2 * Real.pi) 0 0 0 1 (by push_cast; ring)

/-! ## `init`: lemmas -/

/-- The difference of two tick readings taken as `uint32_t` is the true difference modulo
`2 ^ 32`. -/
theorem sub_u32_of_le (a b : Nat) (hab : a ≤ b) :
    sub_u32 (b % 2 ^ 32) (a % 2 ^ 32) = (b - a) % 2 ^ 32 := by
  unfold sub_u32
  omega

/-- A pass in terms of its three writes. -/
theorem init_pass_eq {σ : Type} (U : UART σ) (l : Line σ) :
    init_pass U l =
      if (write_reg U 0x3D [0x00] 1 l).1 = false then (false, (write_reg U 0x3D [0x00] 1 l).2)
      else if (write_reg U 0x3B [0x04] 1 (write_reg U 0x3D [0x00] 1 l).2).1 = false then
        (false, (write_reg U 0x3B [0x04] 1 (write_reg U 0x3D [0x00] 1 l).2).2)
      else
        ((write_reg U 0x3D [0x08] 1
            (write_reg U 0x3B [0x04] 1 (write_reg U 0x3D [0x00] 1 l).2).2).1,
          (write_reg U 0x3D [0x08] 1
            (write_reg U 0x3B [0x04] 1 (write_reg U 0x3D [0x00] 1 l).2).2).2) := by
  simp only [init_pass]
  rcases (write_reg U 0x3D [0x00] 1 l).1 with _ | _
  · simp
  rcases (write_reg U 0x3B [0x04] 1 (write_reg U 0x3D [0x00] 1 l).2).1 with _ | _
  · simp
  rcases h3 : (write_reg U 0x3D [0x08] 1
      (write_reg U 0x3B [0x04] 1 (write_reg U 0x3D [0x00] 1 l).2).2).1 with _ | _ <;> simp [h3]

/-- One evaluation of the loop condition of `init`, followed by a pass when time is left. -/
theorem init_loop_succ {σ : Type} (U : UART σ) (ticks : Nat → Nat) (start timeout : Nat)
    (fuel n : Nat) (l : Line σ) :
    init_loop U ticks start timeout (fuel + 1) n l =
      if sub_u32 (get_ticks ticks n) start < timeout then
        if (init_pass U l).1 = true then some (true, n + 1, (init_pass U l).2)
        else init_loop U ticks start timeout fuel (n + 1) (init_pass U l).2
      else some (false, n + 1, l) := by
  simp only [init_loop, init_pass]
  by_cases ht : sub_u32 (get_ticks ticks n) start < timeout
  · simp only [ht, if_true]
    rcases (write_reg U 0x3D [0x00] 1 l).1 with _ | _
    · simp
    rcases (write_reg U 0x3B [0x04] 1 (write_reg U 0x3D [0x00] 1 l).2).1 with _ | _
    · simp
    rcases (write_reg U 0x3D [0x08] 1
      (write_reg U 0x3B [0x04] 1 (write_reg U 0x3D [0x00] 1 l).2).2).1 with _ | _ <;> simp
  · simp only [ht, if_false]

/-- The passes after the first one are the passes of a run that starts after it. -/
theorem pass_line_shift {σ : Type} (U : UART σ) (l : Line σ) (i : Nat) :
    pass_line U (init_pass U l).2 i = pass_line U l (i + 1) := by
  induction i with
  | zero => rfl
  | succ i ih => simp only [pass_line, ih]

/-- The runs of the loop of `init` that return: `k` passes fail while time is left, and then
either a pass succeeds while time is left, or no time is left. -/
theorem init_loop_some_iff {σ : Type} (U : UART σ) (ticks : Nat → Nat) (start timeout : Nat)
    (fuel n : Nat) (l : Line σ) (r : Bool × Nat × Line σ) :
    init_loop U ticks start timeout fuel n l = some r ↔
      ∃ k, k < fuel ∧
        (∀ i, i < k → sub_u32 (get_ticks ticks (n + i)) start < timeout ∧
          (init_pass U (pass_line U l i)).1 = false) ∧
        ((sub_u32 (get_ticks ticks (n + k)) start < timeout ∧
            (init_pass U (pass_line U l k)).1 = true ∧
            r = (true, n + k + 1, (init_pass U (pass_line U l k)).2)) ∨
          (¬ sub_u32 (get_ticks ticks (n + k)) start < timeout ∧
            r = (false, n + k + 1, pass_line U l k))) := by
  induction fuel generalizing n l with
  | zero => simp [init_loop]
  | succ fuel ih =>
    rw [init_loop_succ]
    by_cases ht : sub_u32 (get_ticks ticks n) start < timeout
    · rw [if_pos ht]
      by_cases hp : (init_pass U l).1 = true
      · rw [if_pos hp]
        constructor
        · intro h
          refine ⟨0, Nat.succ_pos _, fun i hi => absurd hi (Nat.not_lt_zero i), Or.inl ⟨ht, hp, ?_⟩⟩
          exact (Option.some.inj h).symm
        · rintro ⟨k, -, hk, hr⟩
          rcases Nat.eq_zero_or_pos k with rfl | hpos
          · rcases hr with ⟨-, -, rfl⟩ | ⟨hnt, -⟩
            · rfl
            · exact absurd ht hnt
          · have := (hk 0 hpos).2
            rw [show pass_line U l 0 = l from rfl, hp] at this
            cases this
      · rw [if_neg hp]
        have hpf : (init_pass U l).1 = false := by
          rcases h : (init_pass U l).1 with _ | _
          · rfl
          · exact absurd h hp
        rw [ih]
        constructor
        · rintro ⟨k, hkf, hk, hr⟩
          refine ⟨k + 1, Nat.succ_lt_succ hkf, ?_, ?_⟩
          · intro i hi
            rcases i with _ | i
            · exact ⟨ht, hpf⟩
            · have := hk i (Nat.lt_of_succ_lt_succ hi)
              rw [pass_line_shift] at this
              rw [show n + (i + 1) = n + 1 + i by omega]
              exact this
          · rw [pass_line_shift] at hr
            rw [show n + (k + 1) = n + 1 + k by omega]
            exact hr
        · rintro ⟨k, hkf, hk, hr⟩
          rcases k with _ | k
          · rcases hr with ⟨-, hp', -⟩ | ⟨hnt, -⟩
            · exact absurd hp' hp
            · exact absurd ht hnt
          · refine ⟨k, Nat.lt_of_succ_lt_succ hkf, ?_, ?_⟩
            · intro i hi
              have := hk (i + 1) (Nat.succ_lt_succ hi)
              rw [pass_line_shift]
              rw [show n + 1 + i = n + (i + 1) by omega]
              exact this
            · rw [pass_line_shift]
              rw [show n + 1 + k = n + (k + 1) by omega]
              exact hr
    · rw [if_neg ht]
      constructor
      · intro h
        refine ⟨0, Nat.succ_pos _, fun i hi => absurd hi (Nat.not_lt_zero i), Or.inr ⟨ht, ?_⟩⟩
        exact (Option.some.inj h).symm
      · rintro ⟨k, -, hk, hr⟩
        rcases Nat.eq_zero_or_pos k with rfl | hpos
        · rcases hr with ⟨ht', -, -⟩ | ⟨-, rfl⟩
          · exact absurd ht' ht
          · rfl
        · exact absurd (hk 0 hpos).1 ht

/-- The calls of `write_reg` on the transport start with a flush and the transmit of the
write request. -/
theorem write_reg_log_prefix {σ : Type} (U : UART σ) (reg : Nat) (data : List Nat) (len : Nat)
    (l : Line σ) :
    ∃ rest, (write_reg U reg data len l).2.log =
      l.log ++ UartOp.flush :: UartOp.transmit [0xAA, 0x00, reg, len] 5 :: rest := by
  have e1 : List.take 4 [0xAA, 0x00, reg, len] = [0xAA, 0x00, reg, len] := rfl
  simp only [write_reg, uart_flush, uart_transmit, uart_receive, e1]
  split_ifs
  · exact ⟨[], by simp⟩
  · exact ⟨[UartOp.transmit (data.take len) 5], by simp⟩
  · exact ⟨[UartOp.transmit (data.take len) 5, UartOp.receive 2 5], by simp⟩
  · exact ⟨[UartOp.transmit (data.take len) 5, UartOp.receive 2 5], by simp⟩

/-- The calls of `write_reg` are appended to the log. -/
theorem write_reg_log_extends {σ : Type} (U : UART σ) (reg : Nat) (data : List Nat) (len : Nat)
    (l : Line σ) : ∃ rest, (write_reg U reg data len l).2.log = l.log ++ rest := by
  obtain ⟨rest, h⟩ := write_reg_log_prefix U reg data len l
  exact ⟨_, h⟩

/-- A pass starts with a flush and the transmit of the write request for register `0x3D`. -/
theorem init_pass_log_prefix {σ : Type} (U : UART σ) (l : Line σ) :
    ∃ rest, (init_pass U l).2.log =
      l.log ++ UartOp.flush :: UartOp.transmit [0xAA, 0x00, 0x3D, 1] 5 :: rest := by
  obtain ⟨r1, h1⟩ := write_reg_log_prefix U 0x3D [0x00] 1 l
  obtain ⟨r2, h2⟩ := write_reg_log_extends U 0x3B [0x04] 1 (write_reg U 0x3D [0x00] 1 l).2
  obtain ⟨r3, h3⟩ := write_reg_log_extends U 0x3D [0x08] 1
    (write_reg U 0x3B [0x04] 1 (write_reg U 0x3D [0x00] 1 l).2).2
  rw [init_pass_eq]
  split_ifs
  · exact ⟨r1, h1⟩
  · exact ⟨r1 ++ r2, by simp [h2, h1]⟩
  · exact ⟨r1 ++ r2 ++ r3, by simp [h3, h2, h1]⟩

/-- On the transport `dead` every pass fails. -/
theorem dead_pass_fails (l : Line Unit) : (init_pass dead l).1 = false := by
  simp [init_pass, write_reg, uart_flush, uart_transmit, dead]

/-! ## `init` -/

/-- Claim C13: for every transport and tick source, `init` runs passes.  A pass issues the
writes `0x3D <- 0x00`, `0x3B <- 0x04`, `0x3D <- 0x08` in this order and ends at the first one
that fails, so what `init` issues next, if anything, is the first write of a new pass, which
starts with a flush and the request `AA 00 3D 01`.  `init` returns true exactly when, after `k`
failed passes started in time, pass `k` is started in time and has its three writes
acknowledged, and then the transport is as that pass left it; it returns false exactly when,
after `k` failed passes started in time, no time is left at the next reading of the tick
counter. -/
theorem init_protocol {σ : Type} (U : UART σ) (ticks : Nat → Nat) (timeout : Nat)
    (l : Line σ) :
    (∀ l0 : Line σ,
      init_pass U l0 =
        if (write_reg U 0x3D [0x00] 1 l0).1 = false then
          (false, (write_reg U 0x3D [0x00] 1 l0).2)
        else if (write_reg U 0x3B [0x04] 1 (write_reg U 0x3D [0x00] 1 l0).2).1 = false then
          (false, (write_reg U 0x3B [0x04] 1 (write_reg U 0x3D [0x00] 1 l0).2).2)
        else
          ((write_reg U 0x3D [0x08] 1
              (write_reg U 0x3B [0x04] 1 (write_reg U 0x3D [0x00] 1 l0).2).2).1,
            (write_reg U 0x3D [0x08] 1
              (write_reg U 0x3B [0x04] 1 (write_reg U 0x3D [0x00] 1 l0).2).2).2)) ∧
    (∀ l0 : Line σ, ∃ rest, (init_pass U l0).2.log =
      l0.log ++ UartOp.flush :: UartOp.transmit [0xAA, 0x00, 0x3D, 1] 5 :: rest) ∧
    (∀ (fuel n : Nat) (l1 : Line σ),
      init U ticks timeout fuel l = some (true, n, l1) ↔
        ∃ k, k < fuel ∧
          (∀ i, i < k → sub_u32 (get_ticks ticks (i + 1)) (get_ticks ticks 0) < timeout ∧
            (init_pass U (pass_line U l i)).1 = false) ∧
          sub_u32 (get_ticks ticks (k + 1)) (get_ticks ticks 0) < timeout ∧
          (init_pass U (pass_line U l k)).1 = true ∧
          n = k + 2 ∧ l1 = (init_pass U (pass_line U l k)).2) ∧
    (∀ (fuel n : Nat) (l1 : Line σ),
      init U ticks timeout fuel l = some (false, n, l1) ↔
        ∃ k, k < fuel ∧
          (∀ i, i < k → sub_u32 (get_ticks ticks (i + 1)) (get_ticks ticks 0) < timeout ∧
            (init_pass U (pass_line U l i)).1 = false) ∧
          ¬ sub_u32 (get_ticks ticks (k + 1)) (get_ticks ticks 0) < timeout ∧
          n = k + 2 ∧ l1 = pass_line U l k) := by
  refine ⟨init_pass_eq U, init_pass_log_prefix U, ?_, ?_⟩
  · intro fuel n l1
    rw [init, init_loop_some_iff]
    constructor
    · rintro ⟨k, hk, hpre, h⟩
      refine ⟨k, hk, fun i hi => by simpa [Nat.add_comm] using hpre i hi, ?_⟩
      rcases h with ⟨ht, hp, hr⟩ | ⟨-, hr⟩
      · simp only [Prod.mk.injEq] at hr
        refine ⟨by simpa [Nat.add_comm] using ht, hp, by omega, hr.2.2⟩
      · simp at hr
    · rintro ⟨k, hk, hpre, ht, hp, hn, hl⟩
      refine ⟨k, hk, fun i hi => by simpa [Nat.add_comm] using hpre i hi, Or.inl ⟨?_, hp, ?_⟩⟩
      · simpa [Nat.add_comm] using ht
      · rw [hn, hl, show 1 + k + 1 = k + 2 by omega]
  · intro fuel n l1
    rw [init, init_loop_some_iff]
    constructor
    · rintro ⟨k, hk, hpre, h⟩
      refine ⟨k, hk, fun i hi => by simpa [Nat.add_comm] using hpre i hi, ?_⟩
      rcases h with ⟨-, -, hr⟩ | ⟨ht, hr⟩
      · simp at hr
      · simp only [Prod.mk.injEq] at hr
        refine ⟨by simpa [Nat.add_comm] using ht, by omega, hr.2.2⟩
    · rintro ⟨k, hk, hpre, ht, hn, hl⟩
      refine ⟨k, hk, fun i hi => by simpa [Nat.add_comm] using hpre i hi, Or.inr ⟨?_, ?_⟩⟩
      · simpa [Nat.add_comm] using ht
      · rw [hn, hl, show 1 + k + 1 = k + 2 by omega]

/-- A run of C13: the second write of the first pass is answered by `EE 00`; the next write is
`0x3D <- 0x00` again and the second pass succeeds. -/
theorem init_protocol_witness :
    init scripted (fun n => n) 500 2 line_init_retry =
      some (true, 3, (init_pass scripted (pass_line scripted line_init_retry 1)).2) ∧
    (init_pass scripted (pass_line scripted line_init_retry 1)).2.log =
      [UartOp.flush, UartOp.transmit [0xAA, 0x00, 0x3D, 1] 5, UartOp.transmit [0x00] 5,
        UartOp.receive 2 5,
        UartOp.flush, UartOp.transmit [0xAA, 0x00, 0x3B, 1] 5, UartOp.transmit [0x04] 5,
        UartOp.receive 2 5,
        UartOp.flush, UartOp.transmit [0xAA, 0x00, 0x3D, 1] 5, UartOp.transmit [0x00] 5,
        UartOp.receive 2 5,
        UartOp.flush, UartOp.transmit [0xAA, 0x00, 0x3B, 1] 5, UartOp.transmit [0x04] 5,
        UartOp.receive 2 5,
        UartOp.flush, UartOp.transmit [0xAA, 0x00, 0x3D, 1] 5, UartOp.transmit [0x08] 5,
        UartOp.receive 2 5] :=
  ⟨((init_protocol scripted (fun n => n) 500 line_init_retry).2.2.1 2 3 _).2
      ⟨1, by decide, by decide, by decide, by decide, rfl, rfl⟩,
    by decide⟩

/-- Claim C14: when no pass succeeds, the timeout is below `2 ^ 32`, and the tick counter
advances between consecutive readings by at least one tick and by less than
`2 ^ 32 - timeout`, then `init` returns false after some number `k ≤ timeout` of passes (with
any bound on the loop above `k`); each pass was started at a reading with fewer than `timeout`
ticks elapsed, and at the last reading at least `timeout` ticks have elapsed. -/
theorem init_times_out {σ : Type} (U : UART σ) (ticks : Nat → Nat) (timeout : Nat)
    (l : Line σ) (htimeout : timeout < 2 ^ 32)
    (hstep : ∀ n, ticks n + 1 ≤ ticks (n + 1) ∧ ticks (n + 1) - ticks n < 2 ^ 32 - timeout)
    (hfail : ∀ i, (init_pass U (pass_line U l i)).1 = false) :
    ∃ k, k ≤ timeout ∧
      (∀ fuel, k < fuel → init U ticks timeout fuel l = some (false, k + 2, pass_line U l k)) ∧
      (∀ i, i < k → ticks (i + 1) - ticks 0 < timeout) ∧
      timeout ≤ ticks (k + 1) - ticks 0 := by
  have hmono : ∀ n, ticks 0 + n ≤ ticks n := by
    intro n
    induction n with
    | zero => simp
    | succ n ih => have := (hstep n).1; omega
  have hex : ∃ m, timeout ≤ ticks (m + 1) - ticks 0 :=
    ⟨timeout, by have := hmono (timeout + 1); omega⟩
  have hk : timeout ≤ ticks (Nat.find hex + 1) - ticks 0 := Nat.find_spec hex
  have hmin : ∀ i, i < Nat.find hex → ticks (i + 1) - ticks 0 < timeout := fun i hi =>
    not_le.1 (Nat.find_min hex hi)
  have hkle : Nat.find hex ≤ timeout :=
    Nat.find_min' hex (by have := hmono (timeout + 1); omega)
  generalize Nat.find hex = k at hk hmin hkle
  have hek : ticks k - ticks 0 ≤ timeout := by
    rcases k with _ | k
    · simp
    · exact (hmin k (Nat.lt_succ_self k)).le
  have hlt : ticks (k + 1) - ticks 0 < 2 ^ 32 := by
    have h1 := (hstep k).2
    have h2 := (hstep k).1
    have h3 := hmono k
    omega
  have hin : ∀ i, i < k → sub_u32 (get_ticks ticks (1 + i)) (get_ticks ticks 0) < timeout := by
    intro i hi
    have h1 := hmin i hi
    have h2 := hmono (i + 1)
    rw [Nat.add_comm 1 i, get_ticks, get_ticks, sub_u32_of_le _ _ (by omega),
      Nat.mod_eq_of_lt (by omega)]
    exact h1
  have hout : ¬ sub_u32 (get_ticks ticks (1 + k)) (get_ticks ticks 0) < timeout := by
    have h2 := hmono (k + 1)
    rw [Nat.add_comm 1 k, get_ticks, get_ticks, sub_u32_of_le _ _ (by omega),
      Nat.mod_eq_of_lt hlt]
    omega
  refine ⟨k, hkle, ?_, hmin, hk⟩
  intro fuel hfuel
  rw [init, init_loop_some_iff]
  refine ⟨k, hfuel, fun i hi => ⟨hin i hi, hfail i⟩, Or.inr ⟨hout, ?_⟩⟩
  rw [show 1 + k + 1 = k + 2 by omega]

/-- A run of C14: a timeout of 3 ticks, a counter that starts 2 ticks before it wraps around
and advances by one tick per reading, and a transport on which everything fails. -/
theorem init_times_out_witness :
    ∃ k, k ≤ 3 ∧
      (∀ fuel, k < fuel →
        init dead (fun n => 4294967294 + n) 3 fuel { dev := (), log := [] } =
          some (false, k + 2, pass_line dead { dev := (), log := [] } k)) ∧
      (∀ i, i < k → (fun n => 4294967294 + n) (i + 1) - (fun n => 4294967294 + n) 0 < 3) ∧
      3 ≤ (fun n => 4294967294 + n) (k + 1) - (fun n => 4294967294 + n) 0 :=
  init_times_out dead (fun n => 4294967294 + n) 3 { dev := (), log := [] } (by norm_num)
    (fun n => ⟨by show 4294967294 + n + 1 ≤ 4294967294 + (n + 1); omega,
      by show 4294967294 + (n + 1) - (4294967294 + n) < 2 ^ 32 - 3; omega⟩)
    (fun i => dead_pass_fails _)

/-- Claim C20: the loop condition of `init` is `(now - start) mod 2 ^ 32 < timeout`.  For a start
reading `s` and a true number `e < 2 ^ 32` of elapsed ticks, so that the counter reads
`(s + e) mod 2 ^ 32`, the condition holds exactly when `e < timeout`, and `init` runs another
pass exactly then.  And `init(0)` returns false at its first reading of the loop condition and
leaves the transport as it found it, whatever the transport is. -/
theorem init_wraparound {σ : Type} (U : UART σ) (ticks : Nat → Nat) (timeout : Nat)
    (l : Line σ) :
    (∀ s e : Nat, s < 2 ^ 32 → e < 2 ^ 32 →
      (sub_u32 ((s + e) % 2 ^ 32) s < timeout ↔ e < timeout)) ∧
    (∀ (fuel n s e : Nat) (l0 : Line σ), s < 2 ^ 32 → e < 2 ^ 32 →
      get_ticks ticks n = (s + e) % 2 ^ 32 →
      init_loop U ticks s timeout (fuel + 1) n l0 =
        if e < timeout then
          if (init_pass U l0).1 = true then some (true, n + 1, (init_pass U l0).2)
          else init_loop U ticks s timeout fuel (n + 1) (init_pass U l0).2
        else some (false, n + 1, l0)) ∧
    (∀ fuel, init U ticks 0 (fuel + 1) l = some (false, 2, l)) := by
  have hsub : ∀ s e : Nat, s < 2 ^ 32 → e < 2 ^ 32 → sub_u32 ((s + e) % 2 ^ 32) s = e := by
    intro s e hs he
    unfold sub_u32
    omega
  refine ⟨?_, ?_, ?_⟩
  · intro s e hs he
    rw [hsub s e hs he]
  · intro fuel n s e l0 hs he hn
    rw [init_loop_succ, hn, hsub s e hs he]
  · intro fuel
    rw [init, init_loop_succ, if_neg (Nat.not_lt_zero _)]

/-- A run of C20: 9 ticks elapsed across the wrap-around with a timeout of 10, and `init(0)` on
a line that would acknowledge every write. -/
theorem init_wraparound_witness :
    sub_u32 ((4294967290 + 9) % 2 ^ 32) 4294967290 < 10 ∧
    init scripted (fun n => n) 0 1 line_init_ok = some (false, 2, line_init_ok) :=
  ⟨((init_wraparound scripted (fun n => n) 10 line_init_ok).1 4294967290 9
      (by norm_num) (by norm_num)).2 (by norm_num),
    (init_wraparound scripted (fun n => n) 0 line_init_ok).2.2 0⟩

/-! ## The quaternion product -/

/-- Claim C15: after a successful `update`, over the reals, the squared norm of the corrected
quaternion is the product of the squared norms of the raw and of the offset quaternion; so
when both have unit norm the corrected quaternion has unit norm. -/
theorem update_quat_norm {σ : Type} (U : UART σ) (data : List Nat) (s : BNO055 ℝ)
    (l : Line σ) (hok : (update U Real.pi data s l).1 = true) :
    let s' := (update U Real.pi data s l).2.1
    get_quat_w s' ^ 2 + get_quat_x s' ^ 2 + get_quat_y s' ^ 2 + get_quat_z s' ^ 2 =
        (s'.quat_w_orig_ ^ 2 + s'.quat_x_orig_ ^ 2 + s'.quat_y_orig_ ^ 2
            + s'.quat_z_orig_ ^ 2) *
          (s.quat_w_offset_ ^ 2 + s.quat_x_offset_ ^ 2 + s.quat_y_offset_ ^ 2
            + s.quat_z_offset_ ^ 2) ∧
      (s'.quat_w_orig_ ^ 2 + s'.quat_x_orig_ ^ 2 + s'.quat_y_orig_ ^ 2
          + s'.quat_z_orig_ ^ 2 = 1 →
        s.quat_w_offset_ ^ 2 + s.quat_x_offset_ ^ 2 + s.quat_y_offset_ ^ 2
          + s.quat_z_offset_ ^ 2 = 1 →
        get_quat_w s' ^ 2 + get_quat_x s' ^ 2 + get_quat_y s' ^ 2 + get_quat_z s' ^ 2 = 1) := by
  intro s'
  have hs : s' = _ := update_state_of_ok U Real.pi data s l hok
  have hprod : get_quat_w s' ^ 2 + get_quat_x s' ^ 2 + get_quat_y s' ^ 2 + get_quat_z s' ^ 2 =
        (s'.quat_w_orig_ ^ 2 + s'.quat_x_orig_ ^ 2 + s'.quat_y_orig_ ^ 2
            + s'.quat_z_orig_ ^ 2) *
          (s.quat_w_offset_ ^ 2 + s.quat_x_offset_ ^ 2 + s.quat_y_offset_ ^ 2
            + s.quat_z_offset_ ^ 2) := by
    rw [hs]
    simp only [get_quat_w, get_quat_x, get_quat_y, get_quat_z]
    ring
  refine ⟨hprod, fun hr ho => ?_⟩
  rw [hprod, hr, ho, one_mul]

/-- A run of C15: raw `(1/2, 1/2, 1/2, 1/2)` and the default offset `(-1, 0, 0, 0)`. -/
theorem update_quat_norm_witness :
    get_quat_w (update scripted Real.pi [0, 0, 0, 0, 0, 0, 0, 0] BNO055.new line_both_ok).2.1 ^ 2
      + get_quat_x
          (update scripted Real.pi [0, 0, 0, 0, 0, 0, 0, 0] BNO055.new line_both_ok).2.1 ^ 2
      + get_quat_y
          (update scripted Real.pi [0, 0, 0, 0, 0, 0, 0, 0] BNO055.new line_both_ok).2.1 ^ 2
      + get_quat_z
          (update scripted Real.pi [0, 0, 0, 0, 0, 0, 0, 0] BNO055.new line_both_ok).2.1 ^ 2
      = 1 :=
  (update_quat_norm scripted [0, 0, 0, 0, 0, 0, 0, 0] BNO055.new line_both_ok
      (by decide)).2
    (by rw [half_quat_state.1, half_quat_state.2.1, half_quat_state.2.2.1,
      half_quat_state.2.2.2]; norm_num)
    (by simp [BNO055.new])

/-! ## The reset functions -/

/-- Claim C16: `reset_euler` sets the Euler offset to the raw Euler angles and `reset_quat`
sets the quaternion offset to `(-w, x, y, z)` of the raw quaternion.  Each changes no other
field (putting the old offset back gives the old state), so the seven accessors return what
they returned before, and each leaves the transport, its log of calls included, as it
was. -/
theorem reset_frame {σ : Type} {K : Type} [LinearOrderedField K] [FloorRing K]
    (U : UART σ) (M_PI : K) (s : BNO055 K) (l : Line σ) :
    ((reset_euler s).euler_x_offset_ = s.euler_x_orig_ ∧
      (reset_euler s).euler_y_offset_ = s.euler_y_orig_ ∧
      (reset_euler s).euler_z_offset_ = s.euler_z_orig_ ∧
      { reset_euler s with
        euler_x_offset_ := s.euler_x_offset_
        euler_y_offset_ := s.euler_y_offset_
        euler_z_offset_ := s.euler_z_offset_ } = s ∧
      BNO055.call U M_PI (s, l) Call.reset_euler = (reset_euler s, l)) ∧
    ((reset_quat s).quat_w_offset_ = -s.quat_w_orig_ ∧
      (reset_quat s).quat_x_offset_ = s.quat_x_orig_ ∧
      (reset_quat s).quat_y_offset_ = s.quat_y_orig_ ∧
      (reset_quat s).quat_z_offset_ = s.quat_z_orig_ ∧
      { reset_quat s with
        quat_w_offset_ := s.quat_w_offset_
        quat_x_offset_ := s.quat_x_offset_
        quat_y_offset_ := s.quat_y_offset_
        quat_z_offset_ := s.quat_z_offset_ } = s ∧
      BNO055.call U M_PI (s, l) Call.reset_quat = (reset_quat s, l)) ∧
    (get_euler_x (reset_euler s) = get_euler_x s ∧ get_euler_y (reset_euler s) = get_euler_y s ∧
      get_euler_z (reset_euler s) = get_euler_z s ∧ get_quat_w (reset_euler s) = get_quat_w s ∧
      get_quat_x (reset_euler s) = get_quat_x s ∧ get_quat_y (reset_euler s) = get_quat_y s ∧
      get_quat_z (reset_euler s) = get_quat_z s) ∧
    (get_euler_x (reset_quat s) = get_euler_x s ∧ get_euler_y (reset_quat s) = get_euler_y s ∧
      get_euler_z (reset_quat s) = get_euler_z s ∧ get_quat_w (reset_quat s) = get_quat_w s ∧
      get_quat_x (reset_quat s) = get_quat_x s ∧ get_quat_y (reset_quat s) = get_quat_y s ∧
      get_quat_z (reset_quat s) = get_quat_z s) := by
  refine ⟨⟨rfl, rfl, rfl, rfl, rfl⟩, ⟨rfl, rfl, rfl, rfl, rfl, rfl⟩,
    ⟨rfl, rfl, rfl, rfl, rfl, rfl, rfl⟩, ⟨rfl, rfl, rfl, rfl, rfl, rfl, rfl⟩⟩

/-- Known values of the two roundings: `0.1f`, `0.1`, a tie that goes to the even significand
and a value that `float` holds exactly. -/
theorem round_bin_values :
    round_f32 (1 / 10) = 13421773 / 134217728 ∧
    round_f64 (1 / 10) = 3602879701896397 / 36028797018963968 ∧
    round_f32 16777217 = 16777216 ∧ round_f32 16777219 = 16777220 ∧
    round_f32 (12345 / 16384) = 12345 / 16384 ∧
    round_f64 (355 / 113) ≠ 355 / 113 := by
  refine ⟨by decide!, by decide!, by decide!, by decide!, by decide!, by decide!⟩

/-- Claim C17 fails on this run in binary32: a successful update reads the quaternion counts
`(12345, 6789, 4321, 8765)`, then `reset_quat` is called, then a successful update reads the
same counts again.  The raw quaternion is the same both times, `counts / 16384`, and the
corrected quaternion is `(-574191/524288, 0, 0, 2^-25)`: the `z` component is not `0`, and the
scalar part is not `-(w² + x² + y² + z²)`, which is `-73496453/67108864`. -/
theorem reset_quat_update_binary32 :
    (update_f32 scripted [0, 0, 0, 0, 0, 0, 0, 0] BNO055.new line_quat_counts).1 = true ∧
    (update_f32 scripted [0, 0, 0, 0, 0, 0, 0, 0]
      (reset_quat (update_f32 scripted [0, 0, 0, 0, 0, 0, 0, 0] BNO055.new
        line_quat_counts).2.1) line_quat_counts).1 = true ∧
    ((update_f32 scripted [0, 0, 0, 0, 0, 0, 0, 0] BNO055.new
        line_quat_counts).2.1.quat_w_orig_ = 12345 / 16384 ∧
      (update_f32 scripted [0, 0, 0, 0, 0, 0, 0, 0] BNO055.new
        line_quat_counts).2.1.quat_x_orig_ = 6789 / 16384 ∧
      (update_f32 scripted [0, 0, 0, 0, 0, 0, 0, 0] BNO055.new
        line_quat_counts).2.1.quat_y_orig_ = 4321 / 16384 ∧
      (update_f32 scripted [0, 0, 0, 0, 0, 0, 0, 0] BNO055.new
        line_quat_counts).2.1.quat_z_orig_ = 8765 / 16384) ∧
    ((update_f32 scripted [0, 0, 0, 0, 0, 0, 0, 0]
        (reset_quat (update_f32 scripted [0, 0, 0, 0, 0, 0, 0, 0] BNO055.new
          line_quat_counts).2.1) line_quat_counts).2.1.quat_w_orig_ = 12345 / 16384 ∧
      (update_f32 scripted [0, 0, 0, 0, 0, 0, 0, 0]
        (reset_quat (update_f32 scripted [0, 0, 0, 0, 0, 0, 0, 0] BNO055.new
          line_quat_counts).2.1) line_quat_counts).2.1.quat_x_orig_ = 6789 / 16384 ∧
      (update_f32 scripted [0, 0, 0, 0, 0, 0, 0, 0]
        (reset_quat (update_f32 scripted [0, 0, 0, 0, 0, 0, 0, 0] BNO055.new
          line_quat_counts).2.1) line_quat_counts).2.1.quat_y_orig_ = 4321 / 16384 ∧
      (update_f32 scripted [0, 0, 0, 0, 0, 0, 0, 0]
        (reset_quat (update_f32 scripted [0, 0, 0, 0, 0, 0, 0, 0] BNO055.new
          line_quat_counts).2.1) line_quat_counts).2.1.quat_z_orig_ = 8765 / 16384) ∧
    (get_quat_w (update_f32 scripted [0, 0, 0, 0, 0, 0, 0, 0]
        (reset_quat (update_f32 scripted [0, 0, 0, 0, 0, 0, 0, 0] BNO055.new
          line_quat_counts).2.1) line_quat_counts).2.1 = -574191 / 524288 ∧
      get_quat_x (update_f32 scripted [0, 0, 0, 0, 0, 0, 0, 0]
        (reset_quat (update_f32 scripted [0, 0, 0, 0, 0, 0, 0, 0] BNO055.new
          line_quat_counts).2.1) line_quat_counts).2.1 = 0 ∧
      get_quat_y (update_f32 scripted [0, 0, 0, 0, 0, 0, 0, 0]
        (reset_quat (update_f32 scripted [0, 0, 0, 0, 0, 0, 0, 0] BNO055.new
          line_quat_counts).2.1) line_quat_counts).2.1 = 0 ∧
      get_quat_z (update_f32 scripted [0, 0, 0, 0, 0, 0, 0, 0]
        (reset_quat (update_f32 scripted [0, 0, 0, 0, 0, 0, 0, 0] BNO055.new
          line_quat_counts).2.1) line_quat_counts).2.1 = 1 / 33554432) ∧
    get_quat_z (update_f32 scripted [0, 0, 0, 0, 0, 0, 0, 0]
        (reset_quat (update_f32 scripted [0, 0, 0, 0, 0, 0, 0, 0] BNO055.new
          line_quat_counts).2.1) line_quat_counts).2.1 ≠ 0 ∧
    get_quat_w (update_f32 scripted [0, 0, 0, 0, 0, 0, 0, 0]
        (reset_quat (update_f32 scripted [0, 0, 0, 0, 0, 0, 0, 0] BNO055.new
          line_quat_counts).2.1) line_quat_counts).2.1 ≠
      -((12345 / 16384 : ℚ) ^ 2 + (6789 / 16384) ^ 2 + (4321 / 16384) ^ 2
        + (8765 / 16384) ^ 2) := by
  refine ⟨by decide!, by decide!, ⟨by decide!, by decide!, by decide!, by decide!⟩,
    ⟨by decide!, by decide!, by decide!, by decide!⟩,
    ⟨by decide!, by decide!, by decide!, by decide!⟩, by decide!, by decide!⟩

/-- Claim C17, amended: over exact real arithmetic, for every raw quaternion
`q = (w, x, y, z)` held by the driver, of unit norm or not, after `reset_quat` and a successful
`update` that decodes the same `q` the corrected quaternion has the vector part `(0, 0, 0)` and
the scalar part `-(w² + x² + y² + z²)`, which is `-1` for a unit `q`. -/
theorem reset_quat_update_scalar {σ : Type} (U : UART σ) (data : List Nat)
    (s : BNO055 ℝ) (l : Line σ)
    (hok : (update U Real.pi data (reset_quat s) l).1 = true)
    (hw : (update U Real.pi data (reset_quat s) l).2.1.quat_w_orig_ = s.quat_w_orig_)
    (hx : (update U Real.pi data (reset_quat s) l).2.1.quat_x_orig_ = s.quat_x_orig_)
    (hy : (update U Real.pi data (reset_quat s) l).2.1.quat_y_orig_ = s.quat_y_orig_)
    (hz : (update U Real.pi data (reset_quat s) l).2.1.quat_z_orig_ = s.quat_z_orig_) :
    get_quat_w (update U Real.pi data (reset_quat s) l).2.1 =
        -(s.quat_w_orig_ ^ 2 + s.quat_x_orig_ ^ 2 + s.quat_y_orig_ ^ 2 + s.quat_z_orig_ ^ 2) ∧
      get_quat_x (update U Real.pi data (reset_quat s) l).2.1 = 0 ∧
      get_quat_y (update U Real.pi data (reset_quat s) l).2.1 = 0 ∧
      get_quat_z (update U Real.pi data (reset_quat s) l).2.1 = 0 ∧
      (s.quat_w_orig_ ^ 2 + s.quat_x_orig_ ^ 2 + s.quat_y_orig_ ^ 2 + s.quat_z_orig_ ^ 2 = 1 →
        get_quat_w (update U Real.pi data (reset_quat s) l).2.1 = -1) := by
  have hs := update_state_of_ok U Real.pi data (reset_quat s) l hok
  rw [hs] at hw hx hy hz ⊢
  simp only [reset_quat] at hw hx hy hz
  simp only [get_quat_w, get_quat_x, get_quat_y, get_quat_z, reset_quat, hw, hx, hy, hz]
  refine ⟨by ring, by ring, by ring, by ring, fun h => ?_⟩
  linarith

/-- A run of the amended C17, from the state reached by a successful update. -/
theorem reset_quat_update_scalar_witness :
    get_quat_x (update scripted Real.pi [0, 0, 0, 0, 0, 0, 0, 0]
      (reset_quat (update scripted Real.pi [0, 0, 0, 0, 0, 0, 0, 0] BNO055.new
        line_both_ok).2.1) line_both_ok).2.1 = 0 :=
  (reset_quat_update_scalar scripted [0, 0, 0, 0, 0, 0, 0, 0]
    (update scripted Real.pi [0, 0, 0, 0, 0, 0, 0, 0] BNO055.new line_both_ok).2.1
    line_both_ok (by decide) rfl rfl rfl rfl).2.1

/-- Claim C18: in a driver on which `reset_quat` was never called, so after any sequence of
calls of `update` and `reset_euler` from the freshly constructed driver, a successful `update`
yields the corrected quaternion `(-w, -x, -y, -z)` for the decoded raw quaternion
`(w, x, y, z)`.  The accessors of the freshly constructed driver return `(1, 0, 0, 0)`, which
is not the product `(-1, 0, 0, 0)` of its raw and offset quaternions. -/
theorem fresh_update_negates {σ : Type} (U : UART σ) (l : Line σ) (calls : List Call)
    (data : List Nat) (hno : Call.reset_quat ∉ calls)
    (hok : (update U Real.pi data (BNO055.after U Real.pi l calls).1
      (BNO055.after U Real.pi l calls).2).1 = true) :
    let s' := (update U Real.pi data (BNO055.after U Real.pi l calls).1
      (BNO055.after U Real.pi l calls).2).2.1
    (get_quat_w s' = -s'.quat_w_orig_ ∧ get_quat_x s' = -s'.quat_x_orig_ ∧
      get_quat_y s' = -s'.quat_y_orig_ ∧ get_quat_z s' = -s'.quat_z_orig_) ∧
    (get_quat_w (BNO055.new : BNO055 ℝ) = 1 ∧ get_quat_x (BNO055.new : BNO055 ℝ) = 0 ∧
      get_quat_y (BNO055.new : BNO055 ℝ) = 0 ∧ get_quat_z (BNO055.new : BNO055 ℝ) = 0) ∧
    (QuaternionAlgebra.mk (BNO055.new : BNO055 ℝ).quat_w_orig_
          (BNO055.new : BNO055 ℝ).quat_x_orig_ (BNO055.new : BNO055 ℝ).quat_y_orig_
          (BNO055.new : BNO055 ℝ).quat_z_orig_ : Quaternion ℝ) *
        (QuaternionAlgebra.mk (BNO055.new : BNO055 ℝ).quat_w_offset_
          (BNO055.new : BNO055 ℝ).quat_x_offset_ (BNO055.new : BNO055 ℝ).quat_y_offset_
          (BNO055.new : BNO055 ℝ).quat_z_offset_ : Quaternion ℝ) =
      (QuaternionAlgebra.mk (-1) 0 0 0 : Quaternion ℝ) ∧
    (QuaternionAlgebra.mk (get_quat_w (BNO055.new : BNO055 ℝ))
          (get_quat_x (BNO055.new : BNO055 ℝ)) (get_quat_y (BNO055.new : BNO055 ℝ))
          (get_quat_z (BNO055.new : BNO055 ℝ)) : Quaternion ℝ) ≠
      (QuaternionAlgebra.mk (BNO055.new : BNO055 ℝ).quat_w_orig_
          (BNO055.new : BNO055 ℝ).quat_x_orig_ (BNO055.new : BNO055 ℝ).quat_y_orig_
          (BNO055.new : BNO055 ℝ).quat_z_orig_ : Quaternion ℝ) *
        (QuaternionAlgebra.mk (BNO055.new : BNO055 ℝ).quat_w_offset_
          (BNO055.new : BNO055 ℝ).quat_x_offset_ (BNO055.new : BNO055 ℝ).quat_y_offset_
          (BNO055.new : BNO055 ℝ).quat_z_offset_ : Quaternion ℝ) := by
  intro s'
  have hoff : default_quat_offset (BNO055.after U Real.pi l calls).1 :=
    foldl_call_default_quat_offset U Real.pi calls hno (BNO055.new, l) ⟨rfl, rfl, rfl, rfl⟩
  obtain ⟨ow, ox, oy, oz⟩ := hoff
  have hs : s' = _ := update_state_of_ok U Real.pi data _ _ hok
  have hprod : (QuaternionAlgebra.mk (BNO055.new : BNO055 ℝ).quat_w_orig_
          (BNO055.new : BNO055 ℝ).quat_x_orig_ (BNO055.new : BNO055 ℝ).quat_y_orig_
          (BNO055.new : BNO055 ℝ).quat_z_orig_ : Quaternion ℝ) *
        (QuaternionAlgebra.mk (BNO055.new : BNO055 ℝ).quat_w_offset_
          (BNO055.new : BNO055 ℝ).quat_x_offset_ (BNO055.new : BNO055 ℝ).quat_y_offset_
          (BNO055.new : BNO055 ℝ).quat_z_offset_ : Quaternion ℝ) =
      (QuaternionAlgebra.mk (-1) 0 0 0 : Quaternion ℝ) := by
    ext <;> simp [BNO055.new]
  refine ⟨?_, ⟨rfl, rfl, rfl, rfl⟩, hprod, ?_⟩
  · rw [hs]
    simp only [get_quat_w, get_quat_x, get_quat_y, get_quat_z, ow, ox, oy, oz]
    refine ⟨by ring, by ring, by ring, by ring⟩
  · rw [hprod]
    intro h
    have := congrArg QuaternionAlgebra.re h
    simp [get_quat_w, BNO055.new] at this
    norm_num at this

/-- A run of C18: `reset_euler`, then a successful update. -/
theorem fresh_update_negates_witness :
    get_quat_w (update scripted Real.pi [0, 0, 0, 0, 0, 0, 0, 0]
        (BNO055.after scripted Real.pi line_both_ok [Call.reset_euler]).1
        (BNO055.after scripted Real.pi line_both_ok [Call.reset_euler]).2).2.1 =
      -(update scripted Real.pi [0, 0, 0, 0, 0, 0, 0, 0]
        (BNO055.after scripted Real.pi line_both_ok [Call.reset_euler]).1
        (BNO055.after scripted Real.pi line_both_ok [Call.reset_euler]).2).2.1.quat_w_orig_ :=
  (fresh_update_negates scripted line_both_ok [Call.reset_euler] [0, 0, 0, 0, 0, 0, 0, 0]
    (by decide) (by decide)).1.1

/-! ## `update`: a failed quaternion read -/

/-- Claim C19: when the Euler read of `update` succeeds and its quaternion read fails, `update`
returns false, the raw Euler angles are the counts of the new payload divided by 900, the
corrected Euler angles are `normalize_angle (raw - offset)`, and every other field (the
Euler offset and the raw, offset and corrected quaternion) is unchanged: putting the old raw
and corrected Euler angles back gives the old state.  When the Euler read fails, `update`
returns false and no field is changed. -/
theorem update_quat_read_failed {σ : Type} {K : Type} [LinearOrderedField K] [FloorRing K]
    (U : UART σ) (M_PI : K) (data : List Nat) (s : BNO055 K) (l : Line σ) :
    ((read_reg U 0x1A data 6 l).1.1 = true →
      (read_reg U 0x20 (read_reg U 0x1A data 6 l).1.2 8 (read_reg U 0x1A data 6 l).2).1.1
        = false →
      (update U M_PI data s l).1 = false ∧
      ((update U M_PI data s l).2.1.euler_x_orig_
          = (int16_at (update_euler_data U data l) 0 : K) / 900 ∧
        (update U M_PI data s l).2.1.euler_y_orig_
          = (int16_at (update_euler_data U data l) 1 : K) / 900 ∧
        (update U M_PI data s l).2.1.euler_z_orig_
          = (int16_at (update_euler_data U data l) 2 : K) / 900) ∧
      ((update U M_PI data s l).2.1.euler_x_ = normalize_angle M_PI
          ((update U M_PI data s l).2.1.euler_x_orig_ - s.euler_x_offset_) ∧
        (update U M_PI data s l).2.1.euler_y_ = normalize_angle M_PI
          ((update U M_PI data s l).2.1.euler_y_orig_ - s.euler_y_offset_) ∧
        (update U M_PI data s l).2.1.euler_z_ = normalize_angle M_PI
          ((update U M_PI data s l).2.1.euler_z_orig_ - s.euler_z_offset_)) ∧
      { (update U M_PI data s l).2.1 with
        euler_x_orig_ := s.euler_x_orig_
        euler_y_orig_ := s.euler_y_orig_
        euler_z_orig_ := s.euler_z_orig_
        euler_x_ := s.euler_x_
        euler_y_ := s.euler_y_
        euler_z_ := s.euler_z_ } = s) ∧
    ((read_reg U 0x1A data 6 l).1.1 = false →
      (update U M_PI data s l).1 = false ∧ (update U M_PI data s l).2.1 = s) := by
  constructor
  · intro h1 h2
    rw [update_state_of_quat_failed U M_PI data s l h1 h2]
    exact ⟨rfl, ⟨rfl, rfl, rfl⟩, ⟨rfl, rfl, rfl⟩, rfl⟩
  · intro h1
    rw [update_state_of_euler_failed U M_PI data s l h1]
    exact ⟨rfl, rfl⟩

/-- A run of C19: the Euler block is answered, the quaternion block is not. -/
theorem update_quat_read_failed_witness :
    (update scripted Real.pi [0, 0, 0, 0, 0, 0, 0, 0] BNO055.new line_quat_fails).1 = false ∧
    (update scripted Real.pi [0, 0, 0, 0, 0, 0, 0, 0] BNO055.new
        line_quat_fails).2.1.euler_z_orig_ =
      (int16_at (update_euler_data scripted [0, 0, 0, 0, 0, 0, 0, 0] line_quat_fails) 2 : ℝ)
        / 900 := by
  have h := (update_quat_read_failed scripted Real.pi [0, 0, 0, 0, 0, 0, 0, 0] BNO055.new
    line_quat_fails).1 (by decide) (by decide)
  exact ⟨h.1, h.2.1.2.2⟩

end module
end tutrcos
